import Mathlib

/-!
Shallow embedding of the IntentFlow agent runtime
(src/src-tauri/src/services/query_engine.rs) and proofs about the
spec's claims.

Conventions of the embedding:
* serde_json `Value` is modelled by `JVal`; objects are association lists
  with unique keys (serde uses a map), numbers are integers (all numeric
  fields used by these code paths are unix seconds, hour counts and row
  limits, i.e. i64/u64 values).
* Rust `str::contains` is byte substring search; because valid UTF-8 is
  self-synchronizing this coincides with character-list infix search, which
  is what we use.  `to_lowercase`/`to_uppercase` are modelled with Lean's
  ASCII case mapping; every keyword tested by the program is ASCII.
* f64 ratio arithmetic in `looks_like_gibberish` is modelled exactly over
  `Rat`; the thresholds (0.35 etc.) are far coarser than f64 rounding error
  at the character counts involved, so the models agree.
* Clock/DB/LLM effects are suspended into explicit environment records
  (`TimeEnv`, `Env`); pure control flow and data manipulation is translated
  from the source verbatim.
-/

/-- Model of serde_json::Value (numbers restricted to integers, which covers
every field these code paths read or write). -/
inductive JVal where
  | null : JVal
  | bool (b : Bool) : JVal
  | num (n : Int) : JVal
  | str (s : String) : JVal
  | arr (elems : List JVal) : JVal
  | obj (fields : List (String × JVal)) : JVal
deriving Inhabited

/-- Association-list lookup, mirroring `map.get(key)` on a serde object. -/
def findField : List (String × JVal) → String → Option JVal
  | [], _ => none
  | (k, v) :: rest, key => if k = key then some v else findField rest key

/-- `map.insert(key, v)`: replace the existing entry or add a new one. -/
def insertField : List (String × JVal) → String → JVal → List (String × JVal)
  | [], key, v => [(key, v)]
  | (k, w) :: rest, key, v =>
    if k = key then (k, v) :: rest else (k, w) :: insertField rest key v

/-- `value.get(key)` (None on non-objects). -/
def JVal.getField : JVal → String → Option JVal
  | .obj fields, key => findField fields key
  | _, _ => none

/-- `value[key]` indexing, which yields `Null` when absent (serde `Index`). -/
def JVal.index (v : JVal) (key : String) : JVal :=
  (v.getField key).getD .null

/-- `value.as_str()`. -/
def JVal.asStr : JVal → Option String
  | .str s => some s
  | _ => none

/-- `value.as_i64()`. -/
def JVal.asInt : JVal → Option Int
  | .num n => some n
  | _ => none

/-- `value.as_u64()` (integers only; negative numbers are rejected as in serde). -/
def JVal.asU64 : JVal → Option Nat
  | .num n => if 0 ≤ n then some n.toNat else none
  | _ => none

/-- `value.as_array()`. -/
def JVal.asArr : JVal → Option (List JVal)
  | .arr elems => some elems
  | _ => none

/-- A list starts with the given pattern. -/
def startsWithL : List Char → List Char → Bool
  | _, [] => true
  | [], _ :: _ => false
  | a :: as, b :: bs => a = b && startsWithL as bs

/-- The pattern occurs as a contiguous sublist. -/
def containsL (pat : List Char) : List Char → Bool
  | [] => startsWithL [] pat
  | c :: rest => startsWithL (c :: rest) pat || containsL pat rest

/-- Rust `haystack.contains(needle)` (byte substring search; on valid UTF-8
this is equivalent to character-level infix search). -/
def containsSub (haystack pat : String) : Bool :=
  containsL pat.toList haystack.toList


/-- Rust `to_lowercase` (ASCII case mapping, as every tested keyword is
ASCII). -/
def lowerStr (s : String) : String :=
  String.mk (s.toList.map Char.toLower)

/-- Rust `to_uppercase` (ASCII case mapping). -/
def upperStr (s : String) : String :=
  String.mk (s.toList.map Char.toUpper)

/-- Rust `str::trim` (strip leading and trailing whitespace). -/
def trimStr (s : String) : String :=
  String.mk (((s.toList.dropWhile Char.isWhitespace).reverse.dropWhile
    Char.isWhitespace).reverse)

/-- Helper of `splitWs`: accumulate the current word (reversed) while
scanning. -/
def splitWsAux : List Char → List Char → List String
  | [], acc => if acc.isEmpty then [] else [String.mk acc.reverse]
  | c :: rest, acc =>
    if c.isWhitespace then
      if acc.isEmpty then splitWsAux rest []
      else String.mk acc.reverse :: splitWsAux rest []
    else
      splitWsAux rest (c :: acc)

/-- Rust `str::split_whitespace`: the non-empty whitespace-separated words. -/
def splitWs (s : String) : List String :=
  splitWsAux s.toList []

/-- Helper of `replaceStr`; `fuel` bounds the scan (it starts at the list
length, which suffices since every step consumes at least one character). -/
def replaceLAux (pat sub : List Char) : Nat → List Char → List Char
  | 0, l => l
  | _ + 1, [] => []
  | fuel + 1, c :: rest =>
    if startsWithL (c :: rest) pat && !pat.isEmpty then
      sub ++ replaceLAux pat sub fuel (rest.drop (pat.length - 1))
    else
      c :: replaceLAux pat sub fuel rest

/-- Rust `str::replace`: replace all non-overlapping occurrences, scanning
left to right. -/
def replaceStr (s pat sub : String) : String :=
  String.mk (replaceLAux pat.toList sub.toList s.toList.length s.toList)

/-- Rust `str.contains(char)`. -/
def strContainsChar (s : String) (c : Char) : Bool :=
  s.toList.contains c

/-- `struct TimeScope`. -/
structure TimeScope where
  id : String
  label : String
  start_ts : Int
  end_ts : Int
deriving Inhabited

/-- `struct QueryIntent`. -/
structure QueryIntent where
  wants_music : Bool
  wants_ocr : Bool
  wants_files : Bool
  wants_timeline : Bool
  broad_summary : Bool
deriving Inhabited

/-- `struct AgentStep`. -/
structure AgentStep where
  turn : Nat
  tool_name : String
  tool_args : JVal
  tool_result : String
  reasoning : String
deriving Inhabited

/-- `struct AgentResult`. -/
structure AgentResult where
  answer : String
  steps : List AgentStep
  activities_referenced : List JVal
deriving Inhabited

/-- `const MAX_TURNS: usize = 20`. -/
def MAX_TURNS : Nat := 20

/-- `const MAX_TOOL_RETRY_LOOPS: usize = 3`. -/
def MAX_TOOL_RETRY_LOOPS : Nat := 3

/-- `fn normalize_whitespace`: split on whitespace, drop empties, join with
single spaces. -/
def normalize_whitespace (input : String) : String :=
  String.intercalate " " (splitWs input)

/-- `fn detect_query_intent`. -/
def detect_query_intent (query : String) : QueryIntent :=
  let q := lowerStr query
  let wants_music := containsSub q "song" || containsSub q "music" ||
    containsSub q "spotify" || containsSub q "hearing" || containsSub q "listen"
  let wants_ocr := containsSub q "ocr" || containsSub q "whatsapp" ||
    containsSub q "chat" || containsSub q "text" || containsSub q "instagram"
  let wants_files := containsSub q "file" || containsSub q "code" ||
    containsSub q "project" || containsSub q "document" || containsSub q "change"
  let wants_timeline := containsSub q "timeline" || containsSub q "what did i do" ||
    containsSub q "activity" || containsSub q "summary" || containsSub q "overview"
  let broad_summary := containsSub q "full summary" ||
    containsSub q "don't leave anything" || containsSub q "dont leave anything" ||
    containsSub q "everything" || containsSub q "today" || containsSub q "yesterday" ||
    containsSub q "this year" || containsSub q "yearly" || containsSub q "annual" ||
    (wants_timeline && (wants_ocr || wants_files || wants_music))
  { wants_music := wants_music, wants_ocr := wants_ocr, wants_files := wants_files,
    wants_timeline := wants_timeline, broad_summary := broad_summary }

/-- `fn is_smalltalk_query`. -/
def is_smalltalk_query (query : String) : Bool :=
  let q := lowerStr (trimStr query)
  if q.toList.length ≤ 12 && (q = "hi" || q = "hello" || q = "hey" || q = "yo") then
    true
  else
    containsSub q "how are you" || containsSub q "thanks" ||
    containsSub q "thank you" || containsSub q "good morning" ||
    containsSub q "good night"

/-- `fn requires_evidence_for_query`. -/
def requires_evidence_for_query (query : String) : Bool :=
  !(is_smalltalk_query query)

/-- `fn requires_multi_tool_validation`. -/
def requires_multi_tool_validation (query : String) : Bool :=
  let q := lowerStr query
  containsSub q "who" || containsSub q "which" || containsSub q "name" ||
  containsSub q "chat" || containsSub q "message" || containsSub q "project" ||
  containsSub q "code" || containsSub q "file" || containsSub q "did i" ||
  containsSub q "what did" || containsSub q "evidence" || containsSub q "confirm"

/-- `fn is_project_query`. -/
def is_project_query (query : String) : Bool :=
  let q := lowerStr query
  containsSub q "project" || containsSub q "projects" || containsSub q "code" ||
  containsSub q "repo" || containsSub q "worked on" || containsSub q "work i did"

/-- `fn is_identity_or_romance_query`. -/
def is_identity_or_romance_query (query : String) : Bool :=
  let q := lowerStr query
  containsSub q "crush" || containsSub q "girl" || containsSub q "boy" ||
  containsSub q "name" || containsSub q "whom do i" || containsSub q "who do i" ||
  containsSub q "love"

/-- `fn step_has_material_evidence`. -/
def step_has_material_evidence (step : AgentStep) : Bool :=
  let out := trimStr step.tool_result
  if out = "" || out = "[]" || out = "\x7b\x7d" then
    false
  else
    let lower := lowerStr out
    !(containsSub lower "no results" || containsSub lower "0 result" ||
      containsSub lower "no matching" || containsSub lower "\"results\":[]" ||
      containsSub lower "\"items\":[]")

/-- `fn has_project_evidence` (note the early return on the first
`get_recent_file_changes` step). -/
def has_project_evidence : List AgentStep → Bool
  | [] => false
  | step :: rest =>
    if step.tool_name = "get_recent_file_changes" then
      step_has_material_evidence step
    else
      let out := lowerStr step.tool_result
      if containsSub out ".ts" || containsSub out ".tsx" || containsSub out ".js" ||
         containsSub out ".rs" || containsSub out ".py" || containsSub out "github" ||
         containsSub out "repo" || containsSub out "pull request" then
        true
      else
        has_project_evidence rest

/-- `fn has_explicit_chat_evidence`. -/
def has_explicit_chat_evidence (steps : List AgentStep) : Bool :=
  steps.any fun step =>
    let out := lowerStr step.tool_result
    containsSub out "whatsapp" || containsSub out "telegram" ||
    containsSub out "instagram" || containsSub out "chat" || containsSub out "message"

/-- `fn has_non_chat_strong_identity_evidence`. -/
def has_non_chat_strong_identity_evidence (steps : List AgentStep) : Bool :=
  let support_hits := steps.foldl
    (fun acc step =>
      if !(step_has_material_evidence step) then acc
      else
        let out := lowerStr step.tool_result
        if containsSub out "linkedin" || containsSub out "profile" ||
           containsSub out "call log" || containsSub out "contact" ||
           containsSub out "frequent" then acc + 1 else acc)
    (0 : Nat)
  decide (2 ≤ support_hits)

/-- The set of names a parallel step contributes in
`collect_evidence_tool_names`. -/
def parallelCallNames (args : JVal) : List String :=
  match (args.getField "calls").bind JVal.asArr with
  | some calls => calls.filterMap fun call => (call.getField "tool").bind JVal.asStr
  | none => []

/-- `fn collect_evidence_tool_names`; the HashSet of distinct names is
modelled as a deduplicated list. -/
def collect_evidence_tool_names (steps : List AgentStep) : List String :=
  let raw := steps.foldl
    (fun acc step =>
      if !(step_has_material_evidence step) then acc
      else if step.tool_name = "get_recent_ocr" || step.tool_name = "search_ocr" ||
              step.tool_name = "get_recent_activities" ||
              step.tool_name = "query_activities" ||
              step.tool_name = "get_recent_file_changes" ||
              step.tool_name = "get_music_history" ||
              step.tool_name = "get_usage_stats" then
        acc ++ [step.tool_name]
      else if step.tool_name = "parallel_search" then
        acc ++ parallelCallNames step.tool_args
      else acc)
    ([] : List String)
  raw.dedup

/-- `fn has_minimum_evidence_for_query`. -/
def has_minimum_evidence_for_query (query : String) (steps : List AgentStep) : Bool :=
  if !(requires_evidence_for_query query) then
    true
  else
    let evidence_steps := collect_evidence_tool_names steps
    if evidence_steps.isEmpty then
      false
    else if requires_multi_tool_validation query then
      if evidence_steps.length < 2 then false
      else if is_project_query query && !(has_project_evidence steps) then false
      else if is_identity_or_romance_query query then
        has_explicit_chat_evidence steps || has_non_chat_strong_identity_evidence steps
      else true
    else if is_project_query query then
      has_project_evidence steps
    else
      decide (1 ≤ evidence_steps.length)

/-- `fn contains_internal_tool_markup`. -/
def contains_internal_tool_markup (text : String) : Bool :=
  let lower := lowerStr text
  containsSub text "<|tool_" || containsSub lower "tool_calls_section_begin" ||
  containsSub lower "tool_call_begin" || containsSub lower "tool_call_argument_begin" ||
  containsSub lower "tool_calls_section_end"

/-- `fn strip_internal_stream_markup`. -/
def strip_internal_stream_markup (text : String) : String :=
  replaceStr (replaceStr (replaceStr (replaceStr (replaceStr text
    "<|tool_calls_section_begin|>" "")
    "<|tool_calls_section_end|>" "")
    "<|tool_call_begin|>" "")
    "<|tool_call_end|>" "")
    "<|tool_call_argument_begin|>" ""

/-- `fn scrub_unsupported_communication_claims`. -/
def scrub_unsupported_communication_claims (answer query : String)
    (steps : List AgentStep) : String :=
  if !(is_identity_or_romance_query query) || has_explicit_chat_evidence steps then
    answer
  else
    let lower := lowerStr answer
    let likely_chat_claim := containsSub lower "texted" || containsSub lower "chatted" ||
      containsSub lower "whatsapp" || containsSub lower "messaged"
    if !likely_chat_claim then
      answer
    else
      answer ++ "\n\nNote: I don't have explicit chat-app evidence in this time range, so I cannot claim texting/chats."

/-- `fn truncate_for_token_limit`: `text.len()` is the UTF-8 byte size, the
cut point is the byte index of the `limit_chars`-th character (i.e. keep the
first `limit_chars` characters, or everything when there are fewer). -/
def truncate_for_token_limit (text : String) (limit_chars : Nat) : String :=
  if text.utf8ByteSize ≤ limit_chars then
    text
  else
    String.mk (text.toList.take limit_chars) ++ "... [truncated]"

/-- `fn looks_like_gibberish`, with the f64 ratio comparisons carried out
exactly over `Rat` (`a / b` on the counts is formed with `mkRat`, the same
rational value; the f64 thresholds 0.35/0.18/0.06/0.7 are the exact
rationals 35/100 etc., and at these character counts f64 rounding cannot
cross them). -/
def looks_like_gibberish (text : String) : Bool :=
  let chars := text.toList
  if chars.isEmpty then
    true
  else
    let total := chars.length
    let letters := (chars.filter Char.isAlpha).length
    let digits := (chars.filter Char.isDigit).length
    let symbols := (chars.filter fun c => !c.isAlphanum && !c.isWhitespace).length
    let vowels := (chars.filter fun c => ("aeiouAEIOU".toList.contains c)).length
    let symbolFrac := mkRat symbols total
    let alphaFrac := mkRat letters total
    let digitFrac := mkRat digits total
    let vowelFrac := if 0 < letters then mkRat vowels letters else 0
    symbolFrac > mkRat 35 100 || alphaFrac < mkRat 18 100 ||
      (decide (10 < letters) && vowelFrac < mkRat 6 100) || digitFrac > mkRat 7 10

/-- The punctuation kept by `sanitize_ocr_for_query`'s character filter. -/
def keptPunct : String := ",.;:!?()[]\x7b\x7d'\"/@#&+-_|"

/-- `fn sanitize_ocr_for_query` (`cleaned.len()` is the UTF-8 byte size). -/
def sanitize_ocr_for_query (text : String) : String :=
  let compact := normalize_whitespace text
  if compact = "" then
    ""
  else
    let filtered := String.mk (compact.toList.filter fun c =>
      c.isAlphanum || c.isWhitespace || keptPunct.toList.contains c)
    let cleaned := normalize_whitespace filtered
    if cleaned.utf8ByteSize < 3 then ""
    else if looks_like_gibberish cleaned then ""
    else cleaned

/-- `fn is_low_signal_result`. -/
def is_low_signal_result (tool : String) (output : String)
    (activities : List JVal) : Bool :=
  if !activities.isEmpty then
    false
  else
    let text := lowerStr (trimStr output)
    if text = "[]" then
      true
    else if tool = "get_music_history" then
      containsSub text "no music activity found"
    else if tool = "get_recent_activities" then
      containsSub text "no activity events found"
    else if tool = "get_recent_file_changes" then
      containsSub text "no file changes found"
    else if tool = "search_ocr" || tool = "get_recent_ocr" then
      containsSub text "no ocr" || containsSub text "no matches"
    else if tool = "query_activities" then
      containsSub text "[]" || containsSub text "no rows"
    else
      false

/-- `fn broaden_tool_args`. -/
def broaden_tool_args (tool : String) (args : JVal) (attempt : Nat) : JVal :=
  match args with
  | .obj fields =>
    let limit := (((findField fields "limit").bind JVal.asU64).getD 20)
    let hours := (((findField fields "hours").bind JVal.asU64).getD 24)
    let has_fixed_window :=
      ((findField fields "start_ts").bind JVal.asInt).isSome &&
      ((findField fields "end_ts").bind JVal.asInt).isSome
    if tool = "get_music_history" || tool = "get_recent_activities" ||
       tool = "get_recent_ocr" || tool = "get_recent_file_changes" then
      let new_limit := min (limit + 20) 250
      let fields := insertField fields "limit" (.num new_limit)
      if !has_fixed_window then
        let new_hours := min (hours * 2) 168
        .obj (insertField fields "hours" (.num new_hours))
      else
        .obj fields
    else if tool = "search_ocr" then
      let new_limit := min (limit + 20) 200
      let fields := insertField fields "limit" (.num new_limit)
      if attempt = 1 then
        match (findField fields "keyword").bind JVal.asStr with
        | some keyword =>
          if strContainsChar keyword ' ' then
            match (splitWs keyword).head? with
            | some first => .obj (insertField fields "keyword" (.str first))
            | none => .obj fields
          else
            .obj fields
        | none => .obj fields
      else
        .obj fields
    else
      args
  | _ => args

/-- Ambient clock/calendar facts used by the engine.  `now` is
`chrono::Utc::now().timestamp()`; the rendering functions stand for the
chrono formatting calls (pure string productions whose content no claim
depends on); `localDayBounds` is `fn local_day_bounds` (None models a failed
local-calendar conversion); `thisYearStart` is the local Jan-1 midnight
timestamp computed by the `this_year` arm (None when that conversion
fails). -/
structure ClockEnv where
  now : Int
  rfc3339Utc : Int → Option String
  nowRfc3339 : String
  clockLabel : Int → Option String
  localDayBounds : Int → Option (Int × Int)
  thisYearStart : Option Int

/-- `fn resolve_window_from_args`. -/
def resolve_window_from_args (clock : ClockEnv) (args : JVal)
    (default_hours : Nat) : Int × Int :=
  let now := clock.now
  let hours : Int := (((args.index "hours").asU64).getD default_hours : Nat)
  let start0 := ((args.getField "start_ts").bind JVal.asInt).getD (now - hours * 3600)
  let end0 := ((args.getField "end_ts").bind JVal.asInt).getD now
  let end1 := if end0 ≤ 0 then now else end0
  let start1 := if start0 < 0 then 0 else start0
  if start1 > end1 then (end1, start1) else (start1, end1)

/-- Scalar (non-`parallel_search`) branch of `enforce_tool_args_with_scope`:
stamp `start_ts`/`end_ts`/`scope_label`/`hours` (and the
`get_recent_activities` / `get_usage_stats` extras) onto an object, leaving
non-objects untouched. -/
def stampScalar (clock : ClockEnv) (scope : TimeScope) (q tool : String)
    (args : JVal) : JVal :=
  match args with
  | .obj fields =>
    let fields := insertField fields "start_ts" (.num scope.start_ts)
    let fields := insertField fields "end_ts" (.num scope.end_ts)
    let fields := insertField fields "scope_label" (.str scope.label)
    let span_seconds := max (scope.end_ts - scope.start_ts) 0
    let span_hours := max ((span_seconds + 3599) / 3600) 1
    let fields := insertField fields "hours" (.num span_hours)
    let fields :=
      if tool = "get_recent_activities" && !(detect_query_intent q).wants_music then
        insertField fields "exclude_media_noise" (.bool true)
      else fields
    let fields :=
      if tool = "get_usage_stats" then
        let start_iso := (clock.rfc3339Utc scope.start_ts).getD "1970-01-01T00:00:00Z"
        let end_iso := (clock.rfc3339Utc scope.end_ts).getD clock.nowRfc3339
        insertField (insertField fields "start_time_iso" (.str start_iso))
          "end_time_iso" (.str end_iso)
      else fields
    .obj fields
  | x => x

-- `fn enforce_tool_args_with_scope` and the recursive descent its
-- `parallel_search` branch performs into each sub-call's `args`
-- (`enforceParallelFields` walks the batch object to its `calls` entry,
-- `enforceCallList`/`enforceCall` walk each call, and `setCallArgs` replaces
-- the call's `args` entry — inserting the enforced empty object when the call
-- has no `args`, exactly as `unwrap_or_else` of the empty json object followed
-- by `insert` does).
mutual

/-- `fn enforce_tool_args_with_scope`. -/
def enforce_tool_args_with_scope (clock : ClockEnv) (scope : TimeScope)
    (q tool : String) (args : JVal) : JVal :=
  if tool = "parallel_search" then
    match args with
    | .obj fields => .obj (enforceParallelFields clock scope q fields)
    | x => x
  else
    stampScalar clock scope q tool args

def enforceParallelFields (clock : ClockEnv) (scope : TimeScope) (q : String) :
    List (String × JVal) → List (String × JVal)
  | [] => []
  | (k, v) :: rest =>
    if k = "calls" then
      (k, match v with
          | .arr elems => .arr (enforceCallList clock scope q elems)
          | x => x) :: rest
    else
      (k, v) :: enforceParallelFields clock scope q rest

def enforceCallList (clock : ClockEnv) (scope : TimeScope) (q : String) :
    List JVal → List JVal
  | [] => []
  | c :: cs => enforceCall clock scope q c :: enforceCallList clock scope q cs

def enforceCall (clock : ClockEnv) (scope : TimeScope) (q : String) :
    JVal → JVal
  | .obj cf =>
    .obj (setCallArgs clock scope q (((findField cf "tool").bind JVal.asStr).getD "") cf)
  | x => x

def setCallArgs (clock : ClockEnv) (scope : TimeScope) (q ctool : String) :
    List (String × JVal) → List (String × JVal)
  | [] =>
    [("args",
      if ctool = "parallel_search" then .obj []
      else stampScalar clock scope q ctool (.obj []))]
  | (k, base) :: rest =>
    if k = "args" then
      (k, enforce_tool_args_with_scope clock scope q ctool base) :: rest
    else
      (k, base) :: setCallArgs clock scope q ctool rest

end

/-- The inlined no-`args` case of `setCallArgs` agrees with the general
function on the empty object, so the inlining is faithful. -/
theorem enforce_on_empty_obj (clock : ClockEnv) (scope : TimeScope)
    (q ctool : String) :
    enforce_tool_args_with_scope clock scope q ctool (.obj []) =
      (if ctool = "parallel_search" then .obj []
       else stampScalar clock scope q ctool (.obj [])) := by
  by_cases h : ctool = "parallel_search" <;>
    simp [enforce_tool_args_with_scope, enforceParallelFields, h]

/-- One row of the `activities` table as consumed by `search_ocr`
(`screen_text` is the parsed `ActivityMetadata::screen_text`; `none` stands
for a missing or unparsable metadata blob). -/
structure OcrRow where
  start_time : Int
  app_name : String
  window_title : String
  duration_seconds : Int
  category_id : Int
  screen_text : Option String
deriving Inhabited

/-- First character position at which the pattern matches (Rust
`str::find`, at character granularity). -/
def firstMatchPos (pat : List Char) : List Char → Option Nat
  | [] => if startsWithL [] pat then some 0 else none
  | c :: rest =>
    if startsWithL (c :: rest) pat then some 0
    else (firstMatchPos pat rest).map (· + 1)

/-- `fn truncate_snippet` (byte indices translated to the character indices
they denote; `keyword.len()` is the keyword's byte length). -/
def truncate_snippet (text keyword : String) : String :=
  match firstMatchPos keyword.toList (lowerStr text).toList with
  | some idx =>
    let start_char_idx := idx - 150
    let end_char_idx := start_char_idx + 300 + keyword.utf8ByteSize
    "..." ++
      String.mk ((text.toList.drop start_char_idx).take (end_char_idx - start_char_idx)) ++
      "..."
  | none => String.mk (text.toList.take 300)

/-- `fn category_name_from_id`. -/
def category_name_from_id (category_id : Int) : String :=
  if category_id = 1 then "Development"
  else if category_id = 2 then "Browser"
  else if category_id = 3 then "Communication"
  else if category_id = 4 then "Entertainment"
  else if category_id = 5 then "Productivity"
  else if category_id = 6 then "System"
  else "Other"

/-- The JSON match record `search_ocr` pushes for one accepted row (object
keys listed in serde's sorted order). -/
def mkOcrMatch (row : OcrRow) (cleaned snippet : String) : JVal :=
  .obj [("app_name", .str row.app_name),
        ("category_id", .num row.category_id),
        ("duration_seconds", .num row.duration_seconds),
        ("metadata", .obj [("ocr_snippet", .str snippet),
                           ("screen_text", .str cleaned)]),
        ("start_time", .num row.start_time),
        ("window_title", .str row.window_title)]

/-- The row-filtering loop of the `search_ocr` branch: skip IntentFlow's own
windows, sanitize the OCR text, drop rows whose text sanitizes to empty,
keep rows containing the keyword, deduplicate by 500-char normalized
snippet, and stop once `limit` matches are collected. -/
def searchOcrLoop (kwLower : String) (limit : Nat) :
    List OcrRow → List String → Nat → List JVal
  | [], _, _ => []
  | row :: rest, seen, count =>
    if containsSub (lowerStr row.app_name) "intentflow" then
      searchOcrLoop kwLower limit rest seen count
    else
      match row.screen_text with
      | none => searchOcrLoop kwLower limit rest seen count
      | some text =>
        let cleaned := sanitize_ocr_for_query text
        if cleaned = "" then
          searchOcrLoop kwLower limit rest seen count
        else if containsSub (lowerStr cleaned) kwLower then
          let snippet := truncate_snippet cleaned kwLower
          let short := normalize_whitespace (String.mk (snippet.toList.take 500))
          if seen.contains short then
            searchOcrLoop kwLower limit rest seen count
          else
            let m := mkOcrMatch row cleaned snippet
            if limit ≤ count + 1 then [m]
            else m :: searchOcrLoop kwLower limit rest (short :: seen) (count + 1)
        else
          searchOcrLoop kwLower limit rest seen count

/-- The numbered rendering of `search_ocr` matches (one line per match,
with the Local-time label supplied by the clock). -/
def formatOcrMatches (clock : ClockEnv) : Nat → List JVal → String
  | _, [] => ""
  | i, item :: rest =>
    let app := (((item.getField "app_name").bind JVal.asStr).getD "Unknown")
    let start_time := (((item.getField "start_time").bind JVal.asInt).getD 0)
    let dt := (clock.clockLabel start_time).getD "Unknown time"
    let snippet :=
      (((item.getField "metadata").bind (·.getField "ocr_snippet")).bind JVal.asStr).getD ""
    toString (i + 1) ++ ". " ++ app ++ " at " ++ dt ++ "\n   " ++ snippet ++ "\n" ++
      formatOcrMatches clock (i + 1) rest

/-- Abstracted effects: the database-backed tool branches whose internals no
claim touches (`get_music_history`, `get_recent_activities`,
`get_recent_file_changes`, `get_recent_ocr`, `get_usage_stats`), the
prepared-statement path of `query_activities` (reached only after the SQL
guard), the rows delivered by the `search_ocr` SQL pre-filter, the
regex-based `normalize_final_answer_hardened`, and the LLM-backed
`synthesize_answer_from_evidence` (already including its `unwrap_or_else`
fallback text).  An `Except.error` from a field models any failure of that
effect, including the per-call `Connection::open` errors. -/
structure Env where
  clock : ClockEnv
  musicHistory : JVal → Except String (String × List JVal)
  recentActivities : JVal → Except String (String × List JVal)
  fileChanges : JVal → Except String (String × List JVal)
  recentOcr : JVal → Except String (String × List JVal)
  usageStats : JVal → Except String (String × List JVal)
  runSelect : String → Except String (String × List JVal)
  searchRows : Int → Int → String → List OcrRow
  normalizeHardened : String → String
  synthesize : String → TimeScope → List AgentStep → List JVal → String

/-- `fn execute_tool`: dispatch on the tool name.  The `resolve_query_scope`,
`query_activities` (guard), `search_ocr`, `query_history` and unknown-tool
branches are concrete; the purely DB-reading branches delegate to `Env`. -/
def execute_tool (env : Env) (tool : String) (args : JVal) :
    Except String (String × List JVal) :=
  if tool = "get_music_history" then env.musicHistory args
  else if tool = "get_recent_activities" then env.recentActivities args
  else if tool = "get_recent_file_changes" then env.fileChanges args
  else if tool = "resolve_query_scope" then
    let suggested_scope := ((args.index "suggested_scope").asStr).getD "last_7_days"
    let reason := ((args.index "reason").asStr).getD "Your query requires a wider search range."
    let enable_sources :=
      match (args.getField "enable_sources").bind JVal.asArr with
      | some elems => elems.filterMap JVal.asStr
      | none => []
    let payload := JVal.obj
      [("enable_sources", .arr (enable_sources.map .str)),
       ("kind", .str "confirm_scope_or_sources"),
       ("reason", .str reason),
       ("retry_message", .str ""),
       ("suggested_time_range", .str suggested_scope)]
    let output := "Scope change requested: time range → " ++ suggested_scope ++
      ", additional sources → [" ++ String.intercalate ", " enable_sources ++
      "]. Reason: " ++ reason
    .ok (output, [payload])
  else if tool = "query_activities" then
    match ((args.index "query").asStr).orElse (fun _ => (args.index "sql").asStr) with
    | none => .error "Missing 'query' argument"
    | some sql =>
      let upper := upperStr sql
      if containsSub upper "DELETE" || containsSub upper "UPDATE" ||
         containsSub upper "DROP" || containsSub upper "INSERT" then
        .error "Only SELECT queries are allowed."
      else
        env.runSelect sql
  else if tool = "search_ocr" then
    match (args.index "keyword").asStr with
    | none => .error "Missing keyword"
    | some keyword =>
      let limit := ((args.index "limit").asU64).getD 100
      let hours := ((args.index "hours").asU64).getD 24
      let window := resolve_window_from_args env.clock args hours
      let kwLower := lowerStr keyword
      let rows := env.searchRows window.1 window.2 kwLower
      let found := searchOcrLoop kwLower limit rows [] 0
      let formatted :=
        if found.isEmpty then
          "No OCR results found for '" ++ keyword ++ "'."
        else
          "Found " ++ toString found.length ++ " OCR matches for '" ++ keyword ++
            "':\n\n" ++ formatOcrMatches env.clock 0 found
      .ok (formatted, found)
  else if tool = "get_recent_ocr" then env.recentOcr args
  else if tool = "get_usage_stats" then env.usageStats args
  else if tool = "query_history" then .error "Use query_activities instead"
  else .error ("Unknown tool: " ++ tool)

/-- The attempt loop inside `execute_tool_with_retries` (`remaining` is the
number of loop iterations left; the loop runs `attempt` from 1 to `loops`). -/
def retriesGo (env : Env) (tool : String) (loops : Nat) :
    Nat → Nat → JVal → Except String (String × List JVal × Nat)
  | 0, _, _ => .error "Tool execution failed after retries"
  | remaining + 1, attempt, cur =>
    match execute_tool env tool cur with
    | .error e => .error e
    | .ok (output, activities) =>
      if attempt = loops || !(is_low_signal_result tool output activities) then
        .ok (output, activities, attempt)
      else
        retriesGo env tool loops remaining (attempt + 1) (broaden_tool_args tool cur attempt)

/-- `fn execute_tool_with_retries`. -/
def execute_tool_with_retries (env : Env) (tool : String) (args : JVal)
    (max_loops : Nat) : Except String (String × List JVal × Nat) :=
  let loops := max max_loops 1
  retriesGo env tool loops loops 1 args

/-- `fn category_name_from_id`-based reference records built by
`transform_activities_for_frontend` for `query_activities`/`search_ocr`
rows (keys in serde's sorted order). -/
def mkQueryRef (item : JVal) : JVal :=
  let media := ((item.getField "metadata").bind (·.getField "media_info")).getD .null
  let category_id := ((item.getField "category_id").bind JVal.asInt).getD 0
  .obj [("app", .str (((item.getField "app_name").bind JVal.asStr).getD "")),
        ("category", .str (category_name_from_id category_id)),
        ("duration_seconds", .num (((item.getField "duration_seconds").bind JVal.asInt).getD 0)),
        ("media", media),
        ("time", .num (((item.getField "start_time").bind JVal.asInt).getD 0)),
        ("title", .str (((item.getField "window_title").bind JVal.asStr).getD ""))]

/-- The reference record built for one `get_recent_file_changes` row. -/
def mkFileChangeRef (item : JVal) : JVal :=
  let path := (((item.getField "path").bind JVal.asStr).getD "")
  let entity_type := (((item.getField "entity_type").bind JVal.asStr).getD "file")
  let change_type := (((item.getField "change_type").bind JVal.asStr).getD "changed")
  let content_preview := (((item.getField "content_preview").bind JVal.asStr).getD "")
  let title :=
    if content_preview = "" then
      "[" ++ entity_type ++ " " ++ change_type ++ "] " ++ path
    else
      "[" ++ entity_type ++ " " ++ change_type ++ "] " ++ path ++ " | " ++
        replaceStr content_preview "\n" " "
  .obj [("app", .str "File Monitor"),
        ("category", .str "Development"),
        ("duration_seconds", .num 0),
        ("media", .null),
        ("time", .num (((item.getField "detected_at").bind JVal.asInt).getD 0)),
        ("title", .str title)]

/-- `fn transform_activities_for_frontend`. -/
def transform_activities_for_frontend (tool : String)
    (tool_activities : List JVal) : List JVal :=
  if tool = "get_music_history" || tool = "get_recent_activities" ||
     tool = "get_recent_ocr" || tool = "parallel_search" then
    tool_activities
  else if tool = "get_recent_file_changes" then
    tool_activities.map mkFileChangeRef
  else if tool = "query_activities" || tool = "search_ocr" then
    tool_activities.map mkQueryRef
  else
    []

/-- The `(app, title, time)` dedup key of `dedupe_activities`. -/
def activityKey (item : JVal) : String :=
  (((item.getField "app").bind JVal.asStr).getD "") ++ "|" ++
    (((item.getField "title").bind JVal.asStr).getD "") ++ "|" ++
    toString (((item.getField "time").bind JVal.asInt).getD 0)

/-- The retain loop of `dedupe_activities` (keep first occurrences). -/
def dedupeGo : List String → List JVal → List JVal
  | _, [] => []
  | seen, item :: rest =>
    let key := activityKey item
    if seen.contains key then dedupeGo seen rest
    else item :: dedupeGo (key :: seen) rest

/-- `fn dedupe_activities`. -/
def dedupe_activities (activities : List JVal) : List JVal :=
  dedupeGo [] activities

/-- `fn is_media_activity_ref`. -/
def is_media_activity_ref (item : JVal) : Bool :=
  if ((item.getField "media").bind (·.getField "title")).isSome then
    true
  else
    let app := ((((item.getField "app").bind JVal.asStr).getD "")).toLower
    containsSub app "spotify" || containsSub app "youtube music" ||
      containsSub app "apple music"

/-- Sequential `mapM` over `Except` (the order in which `parallel_search`
validates calls and joins workers: first error wins). -/
def exceptMapM (f : α → Except String β) : List α → Except String (List β)
  | [] => .ok []
  | a :: as =>
    match f a with
    | .error e => .error e
    | .ok b =>
      match exceptMapM f as with
      | .error e => .error e
      | .ok bs => .ok (b :: bs)

/-- Validation and scope-stamping of one `parallel_search` sub-call (the
body of the spawn loop before the worker starts). -/
def prepCall (env : Env) (scope : Option TimeScope) (q : String) (call : JVal) :
    Except String (String × JVal) :=
  match (call.getField "tool").bind JVal.asStr with
  | none => .error "Each parallel call needs a tool field"
  | some tool =>
    if tool = "parallel_search" then
      .error "Nested parallel_search is not allowed"
    else
      let raw := (call.getField "args").getD (.obj [])
      let tool_args :=
        match scope with
        | some s => enforce_tool_args_with_scope env.clock s q tool raw
        | none => raw
      .ok (tool, tool_args)

/-- One worker of `execute_parallel_search`. -/
def runWorker (env : Env) (p : String × JVal) :
    Except String (String × String × List JVal × Nat) :=
  match execute_tool_with_retries env p.1 p.2 MAX_TOOL_RETRY_LOOPS with
  | .error e => .error e
  | .ok (out, acts, attempts) => .ok (p.1, out, acts, attempts)

/-- `fn execute_parallel_search`: validate/stamp every call, run every
worker, fail the whole batch on the first validation or worker error, and
otherwise merge all outputs into one summary string and one combined
(transformed) record list. -/
def execute_parallel_search (env : Env) (args : JVal) (scope : Option TimeScope)
    (q : String) : Except String (String × List JVal) :=
  match (args.getField "calls").bind JVal.asArr with
  | none => .error "parallel_search requires args.calls array"
  | some calls =>
    if calls.isEmpty then
      .error "parallel_search requires at least one tool call"
    else
      match exceptMapM (prepCall env scope q) calls with
      | .error e => .error e
      | .ok prepared =>
        match exceptMapM (runWorker env) prepared with
        | .error e => .error e
        | .ok results =>
          let header := "Parallel search executed " ++ toString calls.length ++
            " tool calls:\n"
          let combined_output := results.foldl
            (fun acc r =>
              acc ++ "- " ++ r.1 ++ " (attempts: " ++ toString r.2.2.2 ++ ")\n" ++
                "  " ++ truncate_for_token_limit (normalize_whitespace r.2.1) 500 ++ "\n")
            header
          let combined_activities := results.foldl
            (fun acc r => acc ++ transform_activities_for_frontend r.1 r.2.2.1) []
          .ok (combined_output, combined_activities)

/-- `fn resolve_time_scope`. -/
def resolve_time_scope (clock : ClockEnv) (explicit_scope : Option String) :
    TimeScope :=
  let now := clock.now
  let scope_id :=
    match explicit_scope with
    | some s => if trimStr s = "" then "today" else lowerStr (trimStr s)
    | none => "today"
  if scope_id = "yesterday" then
    let p := (clock.localDayBounds 1).getD (now - 86400, now)
    { id := scope_id, label := "Yesterday", start_ts := p.1, end_ts := p.2 }
  else if scope_id = "last_3_days" then
    { id := scope_id, label := "Last 3 Days",
      start_ts := ((clock.localDayBounds 2).map Prod.fst).getD (now - 3 * 86400),
      end_ts := now }
  else if scope_id = "last_7_days" then
    { id := scope_id, label := "Last 7 Days",
      start_ts := ((clock.localDayBounds 6).map Prod.fst).getD (now - 7 * 86400),
      end_ts := now }
  else if scope_id = "last_30_days" then
    { id := scope_id, label := "Last 30 Days",
      start_ts := ((clock.localDayBounds 29).map Prod.fst).getD (now - 30 * 86400),
      end_ts := now }
  else if scope_id = "this_year" then
    { id := scope_id, label := "This Year",
      start_ts := clock.thisYearStart.getD (now - 365 * 86400), end_ts := now }
  else if scope_id = "all_time" then
    { id := scope_id, label := "All Time", start_ts := 0, end_ts := now }
  else
    { id := "today", label := "Today",
      start_ts := ((clock.localDayBounds 0).map Prod.fst).getD (now - 86400),
      end_ts := now }

/-- `fn should_use_long_range_pipeline`. -/
def should_use_long_range_pipeline (query : String) (scope : TimeScope)
    (intent : QueryIntent) : Bool :=
  let q := lowerStr query
  let summary_like := containsSub q "summary" || containsSub q "overview" ||
    containsSub q "recap" || containsSub q "what did i do" ||
    containsSub q "this year" || containsSub q "yearly" || containsSub q "annual"
  if !summary_like then
    false
  else
    let span_days := (max (scope.end_ts - scope.start_ts) 0) / 86400
    scope.id = "this_year" || scope.id = "all_time" || decide (90 ≤ span_days) ||
      intent.broad_summary

/-- `fn execute_and_record_long_range_step` threaded over the accumulated
(steps, refs, digest lines). -/
def execute_and_record_long_range_step (env : Env) (scope : TimeScope)
    (user_query tool : String) (raw_args : JVal) (reasoning : String)
    (acc : List AgentStep × List JVal × List String) :
    Except String (List AgentStep × List JVal × List String) :=
  let enforced_args := enforce_tool_args_with_scope env.clock scope user_query tool raw_args
  match execute_tool_with_retries env tool enforced_args MAX_TOOL_RETRY_LOOPS with
  | .error e => .error e
  | .ok (tool_output, tool_activities, attempts_used) =>
    let with_retry_note :=
      if 1 < attempts_used then
        "Auto-retried with broader search " ++ toString (attempts_used - 1) ++
          " time(s).\n" ++ tool_output
      else tool_output
    let truncated := truncate_for_token_limit with_retry_note 10000
    let step : AgentStep :=
      { turn := 0, tool_name := tool, tool_args := enforced_args,
        tool_result := truncated, reasoning := reasoning }
    let refs := transform_activities_for_frontend tool tool_activities
    let digestLine := tool ++ " -> " ++
      truncate_for_token_limit (normalize_whitespace truncated) 900
    .ok (acc.1 ++ [step], acc.2.1 ++ refs, acc.2.2 ++ [digestLine])

/-- `fn run_long_range_summary_pipeline`. -/
def run_long_range_summary_pipeline (env : Env) (scope : TimeScope)
    (intent : QueryIntent) (user_query : String) :
    Except String (List AgentStep × List JVal × String) :=
  match execute_and_record_long_range_step env scope user_query
      "get_usage_stats" (.obj [])
      "Aggregate usage baseline for long-range summary" ([], [], []) with
  | .error e => .error e
  | .ok acc =>
  let monthly_category_sql :=
    "SELECT strftime('%Y-%m', datetime(start_time, 'unixepoch', 'localtime')) AS month, category_id, SUM(duration_seconds) AS total_seconds, COUNT(*) AS events FROM activities WHERE start_time >= " ++
    toString scope.start_ts ++ " AND start_time <= " ++ toString scope.end_ts ++
    " GROUP BY month, category_id ORDER BY month DESC, total_seconds DESC LIMIT 600"
  match execute_and_record_long_range_step env scope user_query
      "query_activities" (.obj [("query", .str monthly_category_sql)])
      "Monthly category aggregation for long-range compression" acc with
  | .error e => .error e
  | .ok acc =>
  let top_apps_sql :=
    "SELECT app_name, SUM(duration_seconds) AS total_seconds, COUNT(*) AS events FROM activities WHERE start_time >= " ++
    toString scope.start_ts ++ " AND start_time <= " ++ toString scope.end_ts ++
    " GROUP BY app_name ORDER BY total_seconds DESC LIMIT 40"
  match execute_and_record_long_range_step env scope user_query
      "query_activities" (.obj [("query", .str top_apps_sql)])
      "Top apps aggregation for the selected long-range window" acc with
  | .error e => .error e
  | .ok acc =>
  match execute_and_record_long_range_step env scope user_query
      "get_recent_activities"
      (.obj [("exclude_media_noise", .bool (!intent.wants_music)),
             ("limit", .num (if scope.id = "all_time" then 300 else 220))])
      "Concrete activity slice for examples and chronology" acc with
  | .error e => .error e
  | .ok acc =>
  let q := lowerStr user_query
  let needs_files := intent.wants_files || containsSub q "project" ||
    containsSub q "repo" || containsSub q "code"
  match (if needs_files then
      execute_and_record_long_range_step env scope user_query
        "get_recent_file_changes"
        (.obj [("limit", .num (if scope.id = "all_time" then 220 else 160))])
        "File-change slice for project/work summary" acc
    else .ok acc) with
  | .error e => .error e
  | .ok acc =>
  let needs_chat := intent.wants_ocr || containsSub q "chat" ||
    containsSub q "text" || containsSub q "message"
  match (if needs_chat then
      execute_and_record_long_range_step env scope user_query
        "get_recent_ocr"
        (.obj [("limit", .num (if scope.id = "all_time" then 220 else 160))])
        "OCR/chat slice for communication evidence" acc
    else .ok acc) with
  | .error e => .error e
  | .ok acc =>
  match (if intent.wants_music || containsSub q "music" || containsSub q "song" then
      execute_and_record_long_range_step env scope user_query
        "get_music_history"
        (.obj [("limit", .num (if scope.id = "all_time" then 140 else 100))])
        "Music slice for media trend evidence" acc
    else .ok acc) with
  | .error e => .error e
  | .ok acc =>
  .ok (acc.1, acc.2.1, String.intercalate "\n\n" acc.2.2)

/-- `fn build_prefetch_parallel_args` (object keys in serde's sorted
order). -/
def build_prefetch_parallel_args (scope : TimeScope) (intent : QueryIntent) :
    JVal :=
  let calls := [JVal.obj
    [("args", .obj [("exclude_media_noise", .bool (!intent.wants_music)),
                    ("limit", .num (if scope.id = "all_time" then 120 else 80))]),
     ("tool", .str "get_recent_activities")]]
  let calls :=
    if intent.wants_ocr || intent.broad_summary then
      calls ++ [JVal.obj
        [("args", .obj [("limit", .num (if scope.id = "all_time" then 80 else 50))]),
         ("tool", .str "get_recent_ocr")]]
    else calls
  let calls :=
    if intent.wants_files || intent.wants_timeline || intent.broad_summary then
      calls ++ [JVal.obj
        [("args", .obj [("limit", .num (if scope.id = "all_time" then 80 else 40))]),
         ("tool", .str "get_recent_file_changes")]]
    else calls
  let calls :=
    if intent.wants_music then
      calls ++ [JVal.obj
        [("args", .obj [("limit", .num (if scope.id = "all_time" then 80 else 40))]),
         ("tool", .str "get_music_history")]]
    else calls
  .obj [("calls", .arr calls)]

/-- `fn build_forced_validation_parallel_args`. -/
def build_forced_validation_parallel_args (scope : TimeScope)
    (intent : QueryIntent) (query : String) : JVal :=
  let calls := [JVal.obj
    [("args", .obj [("exclude_media_noise", .bool (!intent.wants_music)),
                    ("limit", .num (if scope.id = "all_time" then 120 else 80))]),
     ("tool", .str "get_recent_activities")],
    JVal.obj
    [("args", .obj [("limit", .num (if scope.id = "all_time" then 120 else 80))]),
     ("tool", .str "get_recent_ocr")]]
  let calls :=
    if intent.wants_files || containsSub (lowerStr query) "project" ||
       containsSub (lowerStr query) "file" || containsSub (lowerStr query) "code" then
      calls ++ [JVal.obj
        [("args", .obj [("limit", .num (if scope.id = "all_time" then 100 else 60))]),
         ("tool", .str "get_recent_file_changes")]]
    else calls
  let calls :=
    if intent.wants_music || containsSub (lowerStr query) "song" ||
       containsSub (lowerStr query) "music" then
      calls ++ [JVal.obj
        [("args", .obj [("limit", .num (if scope.id = "all_time" then 80 else 50))]),
         ("tool", .str "get_music_history")]]
    else calls
  .obj [("calls", .arr calls)]

/-- One hex digit (for serde's control-character escapes). -/
def hexDigit (n : Nat) : Char :=
  if n < 10 then Char.ofNat (48 + n) else Char.ofNat (87 + n)

/-- serde_json's escaping of one character inside a JSON string. -/
def escChar (c : Char) : String :=
  if c = '"' then "\\\""
  else if c = '\\' then "\\\\"
  else if c = '\x08' then "\\b"
  else if c = '\x0c' then "\\f"
  else if c = '\n' then "\\n"
  else if c = '\r' then "\\r"
  else if c = '\t' then "\\t"
  else if c.toNat < 32 then
    String.mk ['\\', 'u', '0', '0', hexDigit (c.toNat / 16), hexDigit (c.toNat % 16)]
  else String.singleton c

/-- serde_json's rendering of a string value. -/
def renderJStr (s : String) : String :=
  "\"" ++ String.join (s.toList.map escChar) ++ "\""

/-- The payload shape of the `confirm_scope_or_sources` action marker. -/
structure IfActionPayload where
  enable_sources : List String
  kind : String
  reason : String
  retry_message : String
  suggested_time_range : Option String
deriving Inhabited

/-- serde_json's compact rendering of the payload (object keys emitted in
sorted order, exactly as serde_json's BTreeMap-backed `Display` does). -/
def renderIfAction (p : IfActionPayload) : String :=
  "\x7b\"enable_sources\":[" ++
    String.intercalate "," (p.enable_sources.map renderJStr) ++ "]," ++
    "\"kind\":" ++ renderJStr p.kind ++
    ",\"reason\":" ++ renderJStr p.reason ++
    ",\"retry_message\":" ++ renderJStr p.retry_message ++
    ",\"suggested_time_range\":" ++
    (match p.suggested_time_range with
     | some s => renderJStr s
     | none => "null") ++ "\x7d"

/-- `fn build_insufficient_evidence_action_marker`. -/
def build_insufficient_evidence_action_marker (query : String)
    (scope : TimeScope) : String :=
  let q := lowerStr query
  let e1 := if containsSub q "project" || containsSub q "repo" ||
               containsSub q "code" || containsSub q "file" then ["files"] else []
  let e2 := if containsSub q "browser" || containsSub q "website" ||
               containsSub q "history" || containsSub q "linkedin" then ["browser"] else []
  let e3 := if containsSub q "chat" || containsSub q "text" ||
               containsSub q "message" then ["screen"] else []
  let enable_sources := e1 ++ e2 ++ e3
  let suggested_scope :=
    if containsSub q "this year" && scope.id ≠ "this_year" then "this_year"
    else if scope.id ≠ "all_time" then "all_time"
    else if scope.id ≠ "last_7_days" then "last_7_days"
    else ""
  if suggested_scope = "" && enable_sources.isEmpty then
    ""
  else
    "\n\n[[IF_ACTION:" ++
      renderIfAction
        { enable_sources := enable_sources,
          kind := "confirm_scope_or_sources",
          reason := "Evidence is insufficient in the current scope/source settings.",
          retry_message := query,
          suggested_time_range :=
            if suggested_scope = "" then none else some suggested_scope } ++
      "]]"

/-- Rust `{:?}` Debug rendering of a Vec of strings. -/
def debugFmtList (xs : List String) : String :=
  "[" ++ String.intercalate ", " (xs.map renderJStr) ++ "]"

/-- One parsed model turn: the tagged union the layered parser produces
(`enum AgentResponse`). -/
inductive AgentResponse where
  | toolCall (tool : String) (args : JVal) (reasoning : Option String)
  | finalAnswer (text : String)
deriving Inhabited

/-- The mutable state of the agent loop (the conversation transcript only
feeds the LLM, which is abstracted by the turn trace, so it is not
carried). -/
structure LoopState where
  steps : List AgentStep
  all_activities : List JVal
  final_without_evidence_attempts : Nat
  forced_parallel_runs : Nat
deriving Inhabited

/-- Outcome of one loop iteration: return a result, keep looping, or
propagate an error. -/
inductive TurnOutcome where
  | halt (r : AgentResult)
  | next (st : LoopState)
  | fail (e : String)

/-- The per-query constants of the loop. -/
structure LoopConfig where
  user_query : String
  scope : TimeScope
  intent : QueryIntent

/-- The forced broad `parallel_search` executed when a final answer arrives
with too little evidence (shared by both forced branches, which differ only
in the recorded reasoning). -/
def runForcedParallel (env : Env) (cfg : LoopConfig) (turn : Nat)
    (st : LoopState) (why : String) : TurnOutcome :=
  let forced_args := build_forced_validation_parallel_args cfg.scope cfg.intent cfg.user_query
  match execute_parallel_search env forced_args (some cfg.scope) cfg.user_query with
  | .error e => .fail e
  | .ok (out, activities) =>
    let all1 :=
      if !activities.isEmpty then
        dedupe_activities (st.all_activities ++ activities)
      else st.all_activities
    let truncated := truncate_for_token_limit out 8000
    let step : AgentStep :=
      { turn := turn + 1, tool_name := "parallel_search", tool_args := forced_args,
        tool_result := truncated, reasoning := why }
    .next { steps := st.steps ++ [step], all_activities := all1,
            final_without_evidence_attempts := st.final_without_evidence_attempts,
            forced_parallel_runs := st.forced_parallel_runs + 1 }

/-- One iteration of the agent loop of
`run_agentic_search_with_steps_and_history_and_scope`, acting on the parsed
model turn.  Event emission and transcript bookkeeping (messages pushed for
the LLM) are omitted: they feed only the abstracted model. -/
def loopTurn (env : Env) (cfg : LoopConfig) (turn : Nat) (st : LoopState) :
    AgentResponse → TurnOutcome
  | .finalAnswer answer =>
    let cleaned_answer :=
      replaceStr (replaceStr (strip_internal_stream_markup answer)
        "<think>" "") "</think>" ""
    let normalized :=
      scrub_unsupported_communication_claims (env.normalizeHardened cleaned_answer)
        cfg.user_query st.steps
    let must_validate := requires_evidence_for_query cfg.user_query
    if must_validate && st.steps.isEmpty && st.forced_parallel_runs < 2 then
      runForcedParallel env cfg turn st "Forced evidence validation before final answer"
    else if contains_internal_tool_markup normalized && turn + 1 < MAX_TURNS then
      .next st
    else
      let lq := lowerStr cfg.user_query
      let is_complex_query := containsSub lq "who" || containsSub lq "crush" ||
        containsSub lq "relationship"
      if is_complex_query && st.steps.length < 5 && turn + 1 < MAX_TURNS then
        .next st
      else if !(has_minimum_evidence_for_query cfg.user_query st.steps) then
        let st := { st with final_without_evidence_attempts :=
                              st.final_without_evidence_attempts + 1 }
        if must_validate && 2 ≤ st.final_without_evidence_attempts &&
           st.forced_parallel_runs < 2 then
          runForcedParallel env cfg turn st
            "Forced cross-tool evidence after weak finalization attempt"
        else if turn + 1 < MAX_TURNS then
          .next st
        else
          .halt { answer :=
                    "I don't have enough cross-checked evidence to answer confidently. Try widening the time range (Last 7 Days or All Time) and enabling Browser History / Files & Documents, then ask me to retry." ++
                    build_insufficient_evidence_action_marker cfg.user_query cfg.scope,
                  steps := st.steps, activities_referenced := st.all_activities }
      else
        .halt { answer := normalized, steps := st.steps,
                activities_referenced := st.all_activities }
  | .toolCall tool args reasoning =>
    if tool = "resolve_query_scope" then
      let suggested_scope := ((args.index "suggested_scope").asStr).getD "last_7_days"
      let reason := ((args.index "reason").asStr).getD "Your query requires a wider search range."
      let enable_sources :=
        match (args.getField "enable_sources").bind JVal.asArr with
        | some l => l.filterMap JVal.asStr
        | none => []
      let step : AgentStep :=
        { turn := turn + 1, tool_name := "resolve_query_scope", tool_args := args,
          tool_result := "Requesting scope change to " ++ suggested_scope ++
            " with sources " ++ debugFmtList enable_sources,
          reasoning := reasoning.getD "" }
      let payload : IfActionPayload :=
        { enable_sources := enable_sources, kind := "confirm_scope_or_sources",
          reason := reason, retry_message := cfg.user_query,
          suggested_time_range := some suggested_scope }
      .halt { answer := "I can answer this more accurately after your confirmation.\n\n[[IF_ACTION:" ++
                renderIfAction payload ++ "]]",
              steps := st.steps ++ [step],
              activities_referenced := st.all_activities }
    else
      let enforced_args := enforce_tool_args_with_scope env.clock cfg.scope cfg.user_query tool args
      let res :=
        if tool = "parallel_search" then
          match execute_parallel_search env enforced_args (some cfg.scope) cfg.user_query with
          | .error e => .error e
          | .ok (out, activities) => .ok (out, activities, 1)
        else
          execute_tool_with_retries env tool enforced_args MAX_TOOL_RETRY_LOOPS
      match res with
      | .error e => .fail e
      | .ok (tool_output, tool_activities, attempts_used) =>
        let all1 := dedupe_activities
          (st.all_activities ++ transform_activities_for_frontend tool tool_activities)
        let all2 :=
          if !cfg.intent.wants_music then
            all1.filter fun item => !(is_media_activity_ref item)
          else all1
        let with_retry_note :=
          if 1 < attempts_used then
            "Auto-retried with broader search " ++ toString (attempts_used - 1) ++
              " time(s).\n" ++ tool_output
          else tool_output
        let truncated_output := truncate_for_token_limit with_retry_note 10000
        let step : AgentStep :=
          { turn := turn + 1, tool_name := tool, tool_args := enforced_args,
            tool_result := truncated_output, reasoning := reasoning.getD "" }
        .next { steps := st.steps ++ [step], all_activities := all2,
                final_without_evidence_attempts := st.final_without_evidence_attempts,
                forced_parallel_runs := st.forced_parallel_runs }

/-- The `for turn in 0..MAX_TURNS` loop, with the model abstracted as a
trace of parsed turns; exhausting the budget falls through to the
single-shot synthesize-from-evidence call. -/
def runLoopAux (env : Env) (cfg : LoopConfig) (trace : Nat → AgentResponse) :
    Nat → Nat → LoopState → Except String AgentResult
  | 0, _, st =>
    .ok { answer := env.synthesize cfg.user_query cfg.scope st.steps st.all_activities,
          steps := st.steps, activities_referenced := st.all_activities }
  | fuel + 1, turn, st =>
    match loopTurn env cfg turn st (trace turn) with
    | .halt r => .ok r
    | .fail e => .error e
    | .next st' => runLoopAux env cfg trace fuel (turn + 1) st'

/-- The agent loop entered with the given initial evidence state. -/
def run_agent_loop (env : Env) (cfg : LoopConfig) (trace : Nat → AgentResponse)
    (st0 : LoopState) : Except String AgentResult :=
  runLoopAux env cfg trace MAX_TURNS 0 st0

/-- The pre-loop evidence stage of
`run_agentic_search_with_steps_and_history_and_scope`: long-range pipeline
when triggered (renumbering the pipeline steps, silently skipped on error),
otherwise a broad-summary prefetch (also silently skipped on error). -/
def initial_evidence (env : Env) (scope : TimeScope) (intent : QueryIntent)
    (user_query : String) : List AgentStep × List JVal :=
  if should_use_long_range_pipeline user_query scope intent then
    match run_long_range_summary_pipeline env scope intent user_query with
    | .ok (pipeline_steps, pipeline_activities, _digest) =>
      let steps := pipeline_steps.enum.map fun p => { p.2 with turn := p.1 + 1 }
      let acts :=
        if !pipeline_activities.isEmpty then
          let a := dedupe_activities pipeline_activities
          if !intent.wants_music then
            a.filter fun item => !(is_media_activity_ref item)
          else a
        else []
      (steps, acts)
    | .error _ => ([], [])
  else if intent.broad_summary then
    match execute_parallel_search env (build_prefetch_parallel_args scope intent)
        (some scope) user_query with
    | .ok (prefetch_output, prefetch_activities) =>
      ([{ turn := 0, tool_name := "parallel_search",
          tool_args := build_prefetch_parallel_args scope intent,
          tool_result := truncate_for_token_limit prefetch_output 4000,
          reasoning := "Prefetch evidence for broad multi-source summary" }],
       prefetch_activities)
    | .error _ => ([], [])
  else
    ([], [])

/-- The whole query run (scope resolution, intent detection, pre-loop
evidence, then the agent loop).  The missing-API-key configuration error and
all event emission are upstream/side effects outside every claim and are
omitted. -/
def run_query_model (env : Env) (trace : Nat → AgentResponse)
    (user_query : String) (explicit_scope : Option String) :
    Except String AgentResult :=
  let resolved_scope := resolve_time_scope env.clock explicit_scope
  let intent := detect_query_intent user_query
  let init := initial_evidence env resolved_scope intent user_query
  run_agent_loop env
    { user_query := user_query, scope := resolved_scope, intent := intent } trace
    { steps := init.1, all_activities := init.2,
      final_without_evidence_attempts := 0, forced_parallel_runs := 0 }

/-! ### Supporting lemmas -/

theorem findField_insertField_self (fields : List (String × JVal)) (key : String)
    (v : JVal) : findField (insertField fields key v) key = some v := by
  induction fields with
  | nil => simp [insertField, findField]
  | cons p rest ih =>
    obtain ⟨k, w⟩ := p
    by_cases h : k = key
    · simp [insertField, findField, h]
    · simp [insertField, findField, h, ih]

theorem findField_insertField_ne (fields : List (String × JVal)) (key k : String)
    (v : JVal) (h : k ≠ key) :
    findField (insertField fields key v) k = findField fields k := by
  induction fields with
  | nil => simp [insertField, findField, Ne.symm h]
  | cons p rest ih =>
    obtain ⟨k2, w⟩ := p
    by_cases h2 : k2 = key
    · subst h2
      simp [insertField, findField, Ne.symm h]
    · by_cases h3 : k2 = k
      · simp [insertField, findField, h2, h3, h]
      · simp [insertField, findField, h2, h3, ih]

theorem mkRat_lt_mkRat_int (a c : Int) (b d : Nat) (hb : 0 < b) (hd : 0 < d) :
    (mkRat a b < mkRat c d) ↔ a * (d : Int) < c * (b : Int) := by
  rw [Rat.mkRat_eq_div, Rat.mkRat_eq_div,
    div_lt_div_iff₀ (by exact_mod_cast hb) (by exact_mod_cast hd)]
  exact_mod_cast Iff.rfl

/-- Character-class counts of `looks_like_gibberish`, named for the
statements below. -/
def symbolCount (text : String) : Nat :=
  (text.toList.filter fun c => !c.isAlphanum && !c.isWhitespace).length

/-- Letter count of `looks_like_gibberish`. -/
def alphaCount (text : String) : Nat :=
  (text.toList.filter Char.isAlpha).length

/-- Digit count of `looks_like_gibberish`. -/
def digitCount (text : String) : Nat :=
  (text.toList.filter Char.isDigit).length

/-- Vowel count of `looks_like_gibberish`. -/
def vowelCount (text : String) : Nat :=
  (text.toList.filter fun c => ("aeiouAEIOU".toList.contains c)).length

theorem looks_like_gibberish_iff (text : String) :
    looks_like_gibberish text = true ↔
      (text.toList = [] ∨
        35 * text.toList.length < symbolCount text * 100 ∨
        alphaCount text * 100 < 18 * text.toList.length ∨
        (10 < alphaCount text ∧ vowelCount text * 100 < 6 * alphaCount text) ∨
        7 * text.toList.length < digitCount text * 10) := by
  unfold looks_like_gibberish symbolCount alphaCount digitCount vowelCount
  cases h : text.toList with
  | nil => simp
  | cons c cs =>
    have htot : 0 < (c :: cs).length := by simp
    have hnil : ¬(c :: cs = []) := by simp
    simp only [List.isEmpty_cons, Bool.false_eq_true, if_false, gt_iff_lt,
      Bool.or_eq_true, Bool.and_eq_true, decide_eq_true_eq]
    by_cases hA : 0 < (List.filter Char.isAlpha (c :: cs)).length
    · rw [if_pos hA]
      rw [mkRat_lt_mkRat_int _ _ _ _ (by norm_num) htot,
        mkRat_lt_mkRat_int _ _ _ _ htot (by norm_num),
        mkRat_lt_mkRat_int _ _ _ _ hA (by norm_num),
        mkRat_lt_mkRat_int _ _ _ _ (by norm_num) htot]
      simp only [eq_false hnil, false_or]
      omega
    · have hA0 : (List.filter Char.isAlpha (c :: cs)).length = 0 := by omega
      rw [if_neg hA]
      rw [mkRat_lt_mkRat_int _ _ _ _ (by norm_num) htot,
        mkRat_lt_mkRat_int _ _ _ _ htot (by norm_num),
        mkRat_lt_mkRat_int _ _ _ _ (by norm_num) htot]
      simp only [eq_false hnil, false_or]
      omega

theorem searchOcrLoop_skip (kw : String) (limit : Nat) (row : OcrRow)
    (t : String) (hscr : row.screen_text = some t)
    (hsan : sanitize_ocr_for_query t = "") :
    ∀ (pre post : List OcrRow) (seen : List String) (count : Nat),
      searchOcrLoop kw limit (pre ++ row :: post) seen count =
        searchOcrLoop kw limit (pre ++ post) seen count := by
  intro pre
  induction pre with
  | nil =>
    intro post seen count
    simp only [List.nil_append, searchOcrLoop]
    cases h1 : containsSub (lowerStr row.app_name) "intentflow" with
    | true => simp [h1]
    | false => simp [h1, hscr, hsan]
  | cons r pre ih =>
    intro post seen count
    simp only [List.cons_append, searchOcrLoop]
    cases h1 : containsSub (lowerStr r.app_name) "intentflow" with
    | true => simp [h1, ih]
    | false =>
      cases h2 : r.screen_text with
      | none => simp [h1, h2, ih]
      | some t2 =>
        by_cases h3 : sanitize_ocr_for_query t2 = ""
        · simp [h1, h2, h3, ih]
        · cases h4 : containsSub (lowerStr (sanitize_ocr_for_query t2)) kw with
          | false => simp [h1, h2, h3, h4, ih]
          | true =>
            cases h5 : List.contains seen
                (normalize_whitespace
                  (String.mk ((truncate_snippet (sanitize_ocr_for_query t2) kw).toList.take 500))) with
            | true => simp [h1, h2, h3, h4, h5, ih]
            | false =>
              by_cases h6 : limit ≤ count + 1
              · simp [h1, h2, h3, h4, h5, h6, ih]
              · simp [h1, h2, h3, h4, h5, h6, ih]

/-- The gibberish predicate exactly as the claim words it: identical to
`looks_like_gibberish` except that the low-vowel clause fires at "at least
10 letters" (`10 ≤ letters`) instead of the code's strict `letters > 10.0`. -/
def gibberishAsClaimed (text : String) : Bool :=
  let chars := text.toList
  if chars.isEmpty then
    true
  else
    let total := chars.length
    let letters := (chars.filter Char.isAlpha).length
    let digits := (chars.filter Char.isDigit).length
    let symbols := (chars.filter fun c => !c.isAlphanum && !c.isWhitespace).length
    let vowels := (chars.filter fun c => ("aeiouAEIOU".toList.contains c)).length
    let symbolFrac := mkRat symbols total
    let alphaFrac := mkRat letters total
    let digitFrac := mkRat digits total
    let vowelFrac := if 0 < letters then mkRat vowels letters else 0
    symbolFrac > mkRat 35 100 || alphaFrac < mkRat 18 100 ||
      (decide (10 ≤ letters) && vowelFrac < mkRat 6 100) || digitFrac > mkRat 7 10

/-- C5, counterexample: `"bcdfghjklm"` has exactly 10 letters and no vowel,
so the claim's "at least 10 letters with vowel ratio below 0.06" clause
demands that it be discarded — but the code tests `letters > 10.0`, keeps
it, and `sanitize_ocr_for_query` passes it through unchanged. -/
theorem claim_C5_counterexample :
    gibberishAsClaimed "bcdfghjklm" = true ∧
    looks_like_gibberish "bcdfghjklm" = false ∧
    sanitize_ocr_for_query "bcdfghjklm" = "bcdfghjklm" :=
  ⟨by decide, by decide, by decide⟩

/-- C5, amended: the OCR pre-filter discards a string exactly when it is
empty, or its symbol ratio exceeds 0.35, or its alphabetic ratio is below
0.18, or it has more than 10 letters (at least 11, not the claimed 10) with
a vowel-to-letter ratio below 0.06, or its digit ratio exceeds 0.7 (ratios
stated cross-multiplied); the 60%-symbol string
`"##@@$$%%^^&&**(()) text"` sanitizes to empty; and a row whose OCR text
sanitizes to empty contributes nothing to `search_ocr`'s matches: deleting
it from the scanned rows leaves the result unchanged. -/
theorem claim_C5_amended :
    (∀ text : String,
        looks_like_gibberish text = true ↔
          (text.toList = [] ∨
            35 * text.toList.length < symbolCount text * 100 ∨
            alphaCount text * 100 < 18 * text.toList.length ∨
            (10 < alphaCount text ∧ vowelCount text * 100 < 6 * alphaCount text) ∨
            7 * text.toList.length < digitCount text * 10)) ∧
    sanitize_ocr_for_query "##@@$$%%^^&&**(()) text" = "" ∧
    (∀ (kw : String) (limit : Nat) (row : OcrRow) (t : String)
        (pre post : List OcrRow) (seen : List String) (count : Nat),
        row.screen_text = some t → sanitize_ocr_for_query t = "" →
        searchOcrLoop kw limit (pre ++ row :: post) seen count =
          searchOcrLoop kw limit (pre ++ post) seen count) :=
  ⟨looks_like_gibberish_iff,
   by decide,
   fun kw limit row t pre post seen count hscr hsan =>
     searchOcrLoop_skip kw limit row t hscr hsan pre post seen count⟩

/-- C5, witness: a concrete row carrying the 60%-symbol OCR string is
invisible to `search_ocr` — scanning it yields the same (empty) match list
as not scanning it. -/
theorem claim_C5_witness :
    searchOcrLoop "text" 100
      [{ start_time := 5, app_name := "Chrome", window_title := "w",
         duration_seconds := 1, category_id := 2,
         screen_text := some "##@@$$%%^^&&**(()) text" }] [] 0 = [] := by
  have h := claim_C5_amended.2.2 "text" 100
    { start_time := 5, app_name := "Chrome", window_title := "w",
      duration_seconds := 1, category_id := 2,
      screen_text := some "##@@$$%%^^&&**(()) text" }
    "##@@$$%%^^&&**(()) text" [] [] [] 0 rfl claim_C5_amended.2.1
  simpa [searchOcrLoop] using h

/-- C9: resolving with no scope (or a blank or unknown scope string) yields
id `"today"` with `end_ts = now` and `start_ts` the local midnight reported
by `local_day_bounds(0)` (falling back to `now - 86400`); `all_time` starts
at 0; and for every scope id a failed local-calendar conversion falls back
to the UTC `now - N days` bound instead of failing. -/
theorem claim_C9_thm (clock : ClockEnv) :
    ((resolve_time_scope clock none).id = "today" ∧
     (resolve_time_scope clock none).end_ts = clock.now ∧
     (resolve_time_scope clock none).start_ts =
       (match clock.localDayBounds 0 with
        | some p => p.1
        | none => clock.now - 86400)) ∧
    (∀ s : String, trimStr s = "" →
        resolve_time_scope clock (some s) = resolve_time_scope clock none) ∧
    (∀ s : String,
        lowerStr (trimStr s) ∉ (["yesterday", "last_3_days", "last_7_days",
          "last_30_days", "this_year", "all_time"] : List String) →
        resolve_time_scope clock (some s) = resolve_time_scope clock none) ∧
    ((resolve_time_scope clock (some "all_time")).start_ts = 0 ∧
     (resolve_time_scope clock (some "all_time")).end_ts = clock.now) ∧
    ((clock.localDayBounds 1 = none →
        resolve_time_scope clock (some "yesterday") =
          { id := "yesterday", label := "Yesterday",
            start_ts := clock.now - 86400, end_ts := clock.now }) ∧
     (clock.localDayBounds 2 = none →
        (resolve_time_scope clock (some "last_3_days")).start_ts =
          clock.now - 3 * 86400) ∧
     (clock.localDayBounds 6 = none →
        (resolve_time_scope clock (some "last_7_days")).start_ts =
          clock.now - 7 * 86400) ∧
     (clock.localDayBounds 29 = none →
        (resolve_time_scope clock (some "last_30_days")).start_ts =
          clock.now - 30 * 86400) ∧
     (clock.thisYearStart = none →
        (resolve_time_scope clock (some "this_year")).start_ts =
          clock.now - 365 * 86400) ∧
     (clock.localDayBounds 0 = none →
        (resolve_time_scope clock none).start_ts = clock.now - 86400)) := by
  refine ⟨⟨?_, ?_, ?_⟩, ?_, ?_, ⟨?_, ?_⟩, ?_, ?_, ?_, ?_, ?_, ?_⟩
  · simp [resolve_time_scope]
  · simp [resolve_time_scope]
  · simp only [resolve_time_scope]
    norm_num
    cases clock.localDayBounds 0 <;> simp
  · intro s hs
    simp [resolve_time_scope, hs]
  · intro s hs
    simp only [List.mem_cons, List.mem_singleton, not_or] at hs
    obtain ⟨h1, h2, h3, h4, h5, h6⟩ := hs
    by_cases hempty : trimStr s = ""
    · simp [resolve_time_scope, hempty]
    · simp [resolve_time_scope, hempty, h1, h2, h3, h4, h5, h6]
  · have e : (if trimStr "all_time" = "" then "today"
        else lowerStr (trimStr "all_time")) = "all_time" := by decide
    simp [resolve_time_scope, e]
  · have e : (if trimStr "all_time" = "" then "today"
        else lowerStr (trimStr "all_time")) = "all_time" := by decide
    simp [resolve_time_scope, e]
  · intro h
    have e : (if trimStr "yesterday" = "" then "today"
        else lowerStr (trimStr "yesterday")) = "yesterday" := by decide
    simp [resolve_time_scope, e, h]
  · intro h
    have e : (if trimStr "last_3_days" = "" then "today"
        else lowerStr (trimStr "last_3_days")) = "last_3_days" := by decide
    simp [resolve_time_scope, e, h]
  · intro h
    have e : (if trimStr "last_7_days" = "" then "today"
        else lowerStr (trimStr "last_7_days")) = "last_7_days" := by decide
    simp [resolve_time_scope, e, h]
  · intro h
    have e : (if trimStr "last_30_days" = "" then "today"
        else lowerStr (trimStr "last_30_days")) = "last_30_days" := by decide
    simp [resolve_time_scope, e, h]
  · intro h
    have e : (if trimStr "this_year" = "" then "today"
        else lowerStr (trimStr "this_year")) = "this_year" := by decide
    simp [resolve_time_scope, e, h]
  · intro h
    simp [resolve_time_scope, h]

/-- A concrete clock whose local-calendar conversions all fail, for
exercising the fallback paths. -/
def testClockW : ClockEnv :=
  { now := 1000000, rfc3339Utc := fun _ => none, nowRfc3339 := "now",
    clockLabel := fun _ => none, localDayBounds := fun _ => none,
    thisYearStart := none }

/-- C9, witness: with a clock whose local-calendar conversions all fail,
an absent scope resolves to `"today"` with the UTC fallback bounds, a blank
and an unknown scope resolve identically, and `all_time` starts at 0. -/
theorem claim_C9_witness :
    (resolve_time_scope testClockW none).id = "today" ∧
    (resolve_time_scope testClockW none).end_ts = 1000000 ∧
    (resolve_time_scope testClockW none).start_ts = 1000000 - 86400 ∧
    resolve_time_scope testClockW (some "   ") = resolve_time_scope testClockW none ∧
    resolve_time_scope testClockW (some "fortnight") = resolve_time_scope testClockW none ∧
    (resolve_time_scope testClockW (some "all_time")).start_ts = 0 ∧
    resolve_time_scope testClockW (some "yesterday") =
      { id := "yesterday", label := "Yesterday",
        start_ts := 1000000 - 86400, end_ts := 1000000 } := by
  have h := claim_C9_thm testClockW
  exact ⟨h.1.1, h.1.2.1, by simpa using h.1.2.2, h.2.1 "   " (by decide),
    h.2.2.1 "fortnight" (by decide), h.2.2.2.1.1, h.2.2.2.2.1 rfl⟩

theorem toList_length_le_utf8Len (l : List Char) :
    l.length ≤ String.utf8Len l := by
  induction l with
  | nil => simp
  | cons c cs ih =>
    have := Char.utf8Size_pos c
    simp only [List.length_cons, String.utf8Len_cons]
    omega

theorem truncate_toList_length_le (text : String) :
    (truncate_for_token_limit text 10000).toList.length ≤ 10015 := by
  unfold truncate_for_token_limit
  by_cases h : text.utf8ByteSize ≤ 10000
  · rw [if_pos h]
    have h1 : text.toList.length ≤ text.utf8ByteSize := by
      cases text with
      | mk data => simpa using toList_length_le_utf8Len data
    omega
  · rw [if_neg h]
    show (text.toList.take 10000 ++ ("... [truncated]").toList).length ≤ 10015
    simp only [List.length_append, List.length_take]
    have : ("... [truncated]").toList.length = 15 := by decide
    omega

/-- C10, counterexample: a 10 001-character tool output is recorded as a
10 015-character observation (`truncate_for_token_limit` keeps 10 000
characters and appends the 15-character `"... [truncated]"` marker), so the
claimed 10 000-character bound on recorded observations is false. -/
theorem utf8Len_replicate_a (n : Nat) :
    String.utf8Len (List.replicate n 'a') = n := by
  induction n with
  | zero => simp
  | succ n ih =>
    have h1 : Char.utf8Size 'a' = 1 := by decide
    simp [List.replicate_succ, String.utf8Len_cons, ih, h1]

theorem claim_C10_counterexample :
    10000 <
      (truncate_for_token_limit (String.mk (List.replicate 10001 'a'))
        10000).toList.length := by
  have h : ¬((String.mk (List.replicate 10001 'a')).utf8ByteSize ≤ 10000) := by
    rw [String.utf8ByteSize_mk, utf8Len_replicate_a]
    omega
  unfold truncate_for_token_limit
  rw [if_neg h]
  show 10000 <
    ((List.replicate 10001 'a').take 10000 ++ ("... [truncated]").toList).length
  have h15 : ("... [truncated]").toList.length = 15 := by decide
  simp only [List.length_append, List.length_take, List.length_replicate, h15]
  omega

/-- C10, amended: every observation recorded by the agent loop's tool branch
is `truncate_for_token_limit(output, 10000)`, whose length is at most
10 015 characters (10 000 content characters plus the 15-character
truncation marker), not 10 000. -/
theorem claim_C10_amended :
    (∀ text : String,
        (truncate_for_token_limit text 10000).toList.length ≤ 10015) ∧
    (∀ (env : Env) (cfg : LoopConfig) (turn : Nat) (st : LoopState)
        (tool : String) (args : JVal) (r : Option String) (st' : LoopState),
        tool ≠ "resolve_query_scope" →
        loopTurn env cfg turn st (.toolCall tool args r) = .next st' →
        ∃ step : AgentStep, st'.steps = st.steps ++ [step] ∧
          (∃ raw, step.tool_result = truncate_for_token_limit raw 10000) ∧
          step.tool_result.toList.length ≤ 10015) := by
  refine ⟨truncate_toList_length_le, ?_⟩
  intro env cfg turn st tool args r st' htool hnext
  simp only [loopTurn, if_neg htool] at hnext
  set res :=
    (if tool = "parallel_search" then
      match execute_parallel_search env
          (enforce_tool_args_with_scope env.clock cfg.scope cfg.user_query tool args)
          (some cfg.scope) cfg.user_query with
      | .error e => Except.error e
      | .ok (out, activities) => Except.ok (out, activities, 1)
    else
      execute_tool_with_retries env tool
        (enforce_tool_args_with_scope env.clock cfg.scope cfg.user_query tool args)
        MAX_TOOL_RETRY_LOOPS) with hres
  clear_value res
  match res with
  | .error e => simp at hnext
  | .ok (tool_output, tool_activities, attempts_used) =>
    simp only [] at hnext
    cases hnext
    refine ⟨_, rfl, ⟨_, rfl⟩, truncate_toList_length_le _⟩

/-- Concrete environment for witnesses: deterministic one-row tool outputs
(never low-signal), no OCR rows, identity answer cleanup. -/
def testEnv : Env :=
  { clock := testClockW,
    musicHistory := fun _ => .ok ("Found 2 songs", [JVal.obj [("app", .str "Spotify")]]),
    recentActivities := fun _ =>
      .ok ("Recent events: coding in editor", [JVal.obj [("app", .str "Code")]]),
    fileChanges := fun _ => .ok ("3 file changes", [JVal.obj [("app", .str "FM")]]),
    recentOcr := fun _ =>
      .ok ("Recent OCR snippets: hello there", [JVal.obj [("app", .str "Browser")]]),
    usageStats := fun _ => .ok ("stats rows", [JVal.obj [("app", .str "Code")]]),
    runSelect := fun _ => .ok ("rows here", [JVal.obj [("month", .str "2025-01")]]),
    searchRows := fun _ _ _ => [],
    normalizeHardened := id,
    synthesize := fun _ _ _ _ => "synthesized" }

/-- The per-query constants used by the loop witnesses. -/
def cfg_w : LoopConfig :=
  { user_query := "what did I do",
    scope := { id := "today", label := "Today", start_ts := 100, end_ts := 200 },
    intent := detect_query_intent "what did I do" }

/-- Step log of a loop outcome (projection used by closed statements). -/
def outcomeSteps : TurnOutcome → List AgentStep
  | .next st => st.steps
  | .halt r => r.steps
  | .fail _ => []

/-- The outcome of one concrete tool turn, for the C10 witness. -/
def c10OutcomeW : TurnOutcome :=
  loopTurn testEnv cfg_w 0 ⟨[], [], 0, 0⟩
    (.toolCall "get_recent_activities" (.obj []) none)

/-- The continuation state of that turn. -/
def c10StateW : LoopState :=
  match c10OutcomeW with
  | .next st => st
  | _ => ⟨[], [], 0, 0⟩

/-- C10, witness: the observation recorded by a concrete
`get_recent_activities` turn obeys the 10 015-character bound. -/
theorem claim_C10_witness :
    (c10StateW.steps.all fun s => decide (s.tool_result.toList.length ≤ 10015)) = true ∧
    c10StateW.steps.length = 1 := by
  have hnext : loopTurn testEnv cfg_w 0 ⟨[], [], 0, 0⟩
      (.toolCall "get_recent_activities" (.obj []) none) = .next c10StateW := rfl
  obtain ⟨step, hsteps, -, hlen⟩ :=
    claim_C10_amended.2 testEnv cfg_w 0 ⟨[], [], 0, 0⟩ "get_recent_activities"
      (.obj []) none c10StateW (by decide) hnext
  constructor
  · rw [hsteps]
    simp only [List.nil_append, List.all_cons, List.all_nil, Bool.and_true,
      decide_eq_true_eq]
    exact hlen
  · rw [hsteps]
    rfl

/-- C2, counterexample: when the attempt-1 limit exceeds the cap, attempt 2
*decreases* it to the cap (300 → 250), violating the claimed
"greater than or equal to the attempt-1 limit"; the `search_ocr` cap is
200, not 250 (240 → 200); and `search_ocr` never doubles `hours`. -/
theorem claim_C2_counterexample :
    (broaden_tool_args "get_recent_activities"
        (.obj [("limit", .num 300)]) 1).getField "limit" = some (.num 250) ∧
    ¬(300 ≤ 250) ∧
    (broaden_tool_args "search_ocr"
        (.obj [("limit", .num 240)]) 1).getField "limit" = some (.num 200) ∧
    (broaden_tool_args "search_ocr"
        (.obj [("hours", .num 24), ("limit", .num 20)]) 1).getField "hours" =
      some (.num 24) :=
  ⟨rfl, by decide, rfl, rfl⟩

theorem retriesGo_attempt_le (env : Env) (tool : String) (loops : Nat) :
    ∀ (remaining attempt : Nat) (cur : JVal) (out : String)
      (acts : List JVal) (n : Nat),
      retriesGo env tool loops remaining attempt cur = .ok (out, acts, n) →
      n ≤ attempt + remaining - 1 := by
  intro remaining
  induction remaining with
  | zero => intro attempt cur out acts n h; simp [retriesGo] at h
  | succ rem ih =>
    intro attempt cur out acts n h
    rw [retriesGo] at h
    cases hexec : execute_tool env tool cur with
    | error e => rw [hexec] at h; simp at h
    | ok p =>
      obtain ⟨o, a⟩ := p
      rw [hexec] at h
      simp only [] at h
      by_cases hcond : (attempt = loops ||
          !(is_low_signal_result tool o a)) = true
      · rw [if_pos hcond] at h
        cases h
        omega
      · rw [if_neg hcond] at h
        have := ih (attempt + 1) (broaden_tool_args tool cur attempt) out acts n h
        omega

set_option maxRecDepth 4000 in
theorem broaden_four_eq (tool : String) (fields : List (String × JVal))
    (attempt : Nat)
    (harm : (tool = "get_music_history" || tool = "get_recent_activities" ||
             tool = "get_recent_ocr" || tool = "get_recent_file_changes") = true) :
    broaden_tool_args tool (.obj fields) attempt =
      (let limit := ((findField fields "limit").bind JVal.asU64).getD 20
       let hours := ((findField fields "hours").bind JVal.asU64).getD 24
       let has_fixed_window :=
         ((findField fields "start_ts").bind JVal.asInt).isSome &&
           ((findField fields "end_ts").bind JVal.asInt).isSome
       let new_limit : Nat := min (limit + 20) 250
       let fields1 := insertField fields "limit" (.num new_limit)
       if !has_fixed_window then
         let new_hours : Nat := min (hours * 2) 168
         JVal.obj (insertField fields1 "hours" (.num new_hours))
       else
         JVal.obj fields1) := by
  simp only [broaden_tool_args]
  rw [harm]
  rfl

set_option maxRecDepth 4000 in
theorem broaden_search_eq (fields : List (String × JVal)) (attempt : Nat) :
    broaden_tool_args "search_ocr" (.obj fields) attempt =
      (let limit := ((findField fields "limit").bind JVal.asU64).getD 20
       let new_limit : Nat := min (limit + 20) 200
       let fields1 := insertField fields "limit" (.num new_limit)
       if attempt = 1 then
         match (findField fields1 "keyword").bind JVal.asStr with
         | some kw =>
           if strContainsChar kw ' ' then
             match (splitWs kw).head? with
             | some w => JVal.obj (insertField fields1 "keyword" (.str w))
             | none => JVal.obj fields1
           else JVal.obj fields1
         | none => JVal.obj fields1
       else JVal.obj fields1) := by
  rfl

theorem broaden_other_eq (tool : String) (args : JVal) (attempt : Nat)
    (h1 : tool ≠ "get_music_history") (h2 : tool ≠ "get_recent_activities")
    (h3 : tool ≠ "get_recent_ocr") (h4 : tool ≠ "get_recent_file_changes")
    (h5 : tool ≠ "search_ocr") :
    broaden_tool_args tool args attempt = args := by
  cases args with
  | obj fields =>
    simp only [broaden_tool_args]
    rw [if_neg (by simp [h1, h2, h3, h4]), if_neg (by simp [h5])]
  | null => rfl
  | bool b => rfl
  | num n => rfl
  | str s => rfl
  | arr elems => rfl

set_option maxRecDepth 4000 in
/-- C2, amended: for the four broadening retrieval tools the attempt-2
limit is `min(limit + 20, 250)` — hence always at most 250 but at least the
attempt-1 limit only when that limit is at most 230 — and `hours` is
doubled (capped at 168) only when the args carry no fixed
`start_ts`/`end_ts` window; `search_ocr` caps the limit at 200, never
touches `hours`, and narrows a multi-word keyword to its first word on
attempt 2; all other tools' args are returned unchanged; and a tool call
makes at most 3 attempts, attempt 2 running on `broaden_tool_args(args, 1)`
when attempt 1 is low-signal. -/
theorem claim_C2_amended :
    (∀ (tool : String) (fields : List (String × JVal)) (attempt : Nat),
        (tool = "get_music_history" || tool = "get_recent_activities" ||
         tool = "get_recent_ocr" || tool = "get_recent_file_changes") = true →
        (let limit := ((findField fields "limit").bind JVal.asU64).getD 20
         let hours := ((findField fields "hours").bind JVal.asU64).getD 24
         let new_limit : Nat := min (limit + 20) 250
         let new_hours : Nat := min (hours * 2) 168
         let fixed := ((findField fields "start_ts").bind JVal.asInt).isSome &&
           ((findField fields "end_ts").bind JVal.asInt).isSome
         (broaden_tool_args tool (.obj fields) attempt).getField "limit" =
            some (.num new_limit) ∧
         new_limit ≤ 250 ∧
         (limit ≤ 230 → limit ≤ new_limit) ∧
         (fixed = true →
            (broaden_tool_args tool (.obj fields) attempt).getField "hours" =
              findField fields "hours") ∧
         (fixed = false →
            (broaden_tool_args tool (.obj fields) attempt).getField "hours" =
              some (.num new_hours)))) ∧
    (∀ (fields : List (String × JVal)) (attempt : Nat),
        (let limit := ((findField fields "limit").bind JVal.asU64).getD 20
         let new_limit : Nat := min (limit + 20) 200
         (broaden_tool_args "search_ocr" (.obj fields) attempt).getField "limit" =
            some (.num new_limit) ∧
         new_limit ≤ 250 ∧
         (broaden_tool_args "search_ocr" (.obj fields) attempt).getField "hours" =
            findField fields "hours" ∧
         (∀ kw w, attempt = 1 →
            findField (insertField fields "limit" (.num new_limit)) "keyword" =
              some (.str kw) →
            strContainsChar kw ' ' = true → (splitWs kw).head? = some w →
            (broaden_tool_args "search_ocr" (.obj fields) attempt).getField "keyword" =
              some (.str w)))) ∧
    (∀ (tool : String) (args : JVal) (attempt : Nat),
        tool ≠ "get_music_history" → tool ≠ "get_recent_activities" →
        tool ≠ "get_recent_ocr" → tool ≠ "get_recent_file_changes" →
        tool ≠ "search_ocr" →
        broaden_tool_args tool args attempt = args) ∧
    (∀ (env : Env) (tool : String) (args : JVal) (out : String)
        (acts : List JVal) (n : Nat),
        execute_tool_with_retries env tool args MAX_TOOL_RETRY_LOOPS =
          .ok (out, acts, n) → n ≤ 3) ∧
    (∀ (env : Env) (tool : String) (args : JVal) (out : String)
        (acts : List JVal),
        execute_tool env tool args = .ok (out, acts) →
        is_low_signal_result tool out acts = true →
        execute_tool_with_retries env tool args MAX_TOOL_RETRY_LOOPS =
          retriesGo env tool 3 2 2 (broaden_tool_args tool args 1)) := by
  refine ⟨?_, ?_, ?_, ?_, ?_⟩
  · intro tool fields attempt harm
    rw [broaden_four_eq tool fields attempt harm]
    cases hfw : (((findField fields "start_ts").bind JVal.asInt).isSome &&
        ((findField fields "end_ts").bind JVal.asInt).isSome) with
    | true =>
      simp only [hfw, Bool.not_true, Bool.false_eq_true, if_false]
      refine ⟨?_, by omega, by omega, ?_, ?_⟩
      · exact findField_insertField_self ..
      · intro _
        exact findField_insertField_ne _ _ _ _ (by decide)
      · intro hcontra
        exact absurd hcontra (by simp)
    | false =>
      simp only [hfw, Bool.not_false, if_true]
      refine ⟨?_, by omega, by omega, ?_, ?_⟩
      · show findField (insertField (insertField fields "limit" _) "hours" _) "limit" = _
        rw [findField_insertField_ne _ _ _ _ (by decide), findField_insertField_self]
      · intro hcontra
        exact absurd hcontra (by simp)
      · intro _
        exact findField_insertField_self ..
  · intro fields attempt
    rw [broaden_search_eq fields attempt]
    by_cases hattempt : attempt = 1
    · subst hattempt
      simp only [if_pos rfl]
      cases hkw : (findField (insertField fields "limit"
          (.num ((min (((findField fields "limit").bind JVal.asU64).getD 20 + 20) 200 : Nat) : Int)))
          "keyword").bind JVal.asStr with
      | none =>
        simp only [hkw]
        refine ⟨findField_insertField_self .., by omega,
          findField_insertField_ne _ _ _ _ (by decide), ?_⟩
        intro kw w _ hfind _ _
        rw [hfind] at hkw
        simp [JVal.asStr] at hkw
      | some kw =>
        simp only [hkw]
        by_cases hsp : strContainsChar kw ' ' = true
        · simp only [hsp, if_true]
          cases hw : (splitWs kw).head? with
          | none =>
            simp only [hw]
            refine ⟨findField_insertField_self .., by omega,
              findField_insertField_ne _ _ _ _ (by decide), ?_⟩
            intro kw2 w _ hfind hsp2 hw2
            rw [hfind] at hkw
            simp only [JVal.asStr, Option.bind_some] at hkw
            cases hkw
            rw [hw] at hw2
            exact absurd hw2 (by simp)
          | some w =>
            simp only [hw]
            refine ⟨?_, by omega, ?_, ?_⟩
            · show findField (insertField (insertField fields "limit" _) "keyword" _) "limit" = _
              rw [findField_insertField_ne _ _ _ _ (by decide), findField_insertField_self]
            · show findField (insertField (insertField fields "limit" _) "keyword" _) "hours" = _
              rw [findField_insertField_ne _ _ _ _ (by decide),
                findField_insertField_ne _ _ _ _ (by decide)]
            · intro kw2 w2 _ hfind hsp2 hw2
              rw [hfind] at hkw
              simp only [JVal.asStr, Option.bind_some] at hkw
              cases hkw
              rw [hw] at hw2
              cases hw2
              exact findField_insertField_self ..
        · simp only [hsp, Bool.false_eq_true, if_false]
          refine ⟨findField_insertField_self .., by omega,
            findField_insertField_ne _ _ _ _ (by decide), ?_⟩
          intro kw2 w _ hfind hsp2 _
          rw [hfind] at hkw
          simp only [JVal.asStr, Option.bind_some] at hkw
          cases hkw
          exact absurd hsp2 hsp
    · simp only [if_neg hattempt]
      refine ⟨findField_insertField_self .., by omega,
        findField_insertField_ne _ _ _ _ (by decide), ?_⟩
      intro kw w hat _ _ _
      exact absurd hat hattempt
  · intro tool args attempt h1 h2 h3 h4 h5
    exact broaden_other_eq tool args attempt h1 h2 h3 h4 h5
  · intro env tool args out acts n h
    have := retriesGo_attempt_le env tool 3 3 1 args out acts n h
    omega
  · intro env tool args out acts hexec hlow
    show retriesGo env tool 3 3 1 args = _
    rw [retriesGo, hexec]
    simp only [hlow, Bool.not_true, Bool.or_false]
    rw [if_neg (by decide)]

/-- C2, witness: a concrete low-signal retry widens 100 → 120 (within the
cap) and narrows the multi-word OCR keyword "foo bar" to "foo". -/
theorem claim_C2_witness :
    (broaden_tool_args "get_recent_activities"
        (.obj [("limit", .num 100)]) 1).getField "limit" = some (.num 120) ∧
    (broaden_tool_args "search_ocr"
        (.obj [("keyword", .str "foo bar"), ("limit", .num 50)]) 1).getField
        "keyword" = some (.str "foo") := by
  constructor
  · have h := (claim_C2_amended.1 "get_recent_activities"
      [("limit", .num 100)] 1 (by decide)).1
    simpa using h
  · exact (claim_C2_amended.2.1 [("keyword", .str "foo bar"), ("limit", .num 50)]
      1).2.2.2 "foo bar" "foo" rfl rfl rfl rfl

theorem retriesGo_error_of_exec_error (env : Env) (tool : String) (loops : Nat)
    (rem attempt : Nat) (cur : JVal) (e : String)
    (hexec : execute_tool env tool cur = .error e) (hrem : 0 < rem) :
    retriesGo env tool loops rem attempt cur = .error e := by
  cases rem with
  | zero => omega
  | succ n => rw [retriesGo, hexec]

theorem execute_tool_with_retries_error (env : Env) (tool : String)
    (args : JVal) (e : String) (hexec : execute_tool env tool args = .error e) :
    execute_tool_with_retries env tool args MAX_TOOL_RETRY_LOOPS = .error e :=
  retriesGo_error_of_exec_error env tool (max MAX_TOOL_RETRY_LOOPS 1)
    (max MAX_TOOL_RETRY_LOOPS 1) 1 args e hexec (by decide)

/-- C6: a `query_activities` SQL string containing (case-insensitively)
DELETE/UPDATE/DROP/INSERT is rejected with "Only SELECT queries are
allowed." without consulting the database (the result is a constant,
independent of the environment); a missing `query`/`sql` argument errors; an
unknown tool name errors; and such errors propagate unchanged through the
retry wrapper and abort the loop turn — never a silent empty success. -/
theorem claim_C6_thm :
    (∀ (env : Env) (args : JVal) (sql : String),
        ((args.index "query").asStr).orElse (fun _ => (args.index "sql").asStr) =
          some sql →
        (containsSub (upperStr sql) "DELETE" || containsSub (upperStr sql) "UPDATE" ||
         containsSub (upperStr sql) "DROP" || containsSub (upperStr sql) "INSERT") = true →
        execute_tool env "query_activities" args =
          .error "Only SELECT queries are allowed.") ∧
    (∀ (env : Env) (args : JVal),
        ((args.index "query").asStr).orElse (fun _ => (args.index "sql").asStr) =
          none →
        execute_tool env "query_activities" args =
          .error "Missing 'query' argument") ∧
    (∀ (env : Env) (tool : String) (args : JVal),
        tool ∉ (["get_music_history", "get_recent_activities",
          "get_recent_file_changes", "resolve_query_scope", "query_activities",
          "search_ocr", "get_recent_ocr", "get_usage_stats",
          "query_history"] : List String) →
        execute_tool env tool args = .error ("Unknown tool: " ++ tool)) ∧
    (∀ (env : Env) (tool : String) (args : JVal) (e : String),
        execute_tool env tool args = .error e →
        execute_tool_with_retries env tool args MAX_TOOL_RETRY_LOOPS = .error e) ∧
    (∀ (env : Env) (cfg : LoopConfig) (turn : Nat) (st : LoopState)
        (tool : String) (args : JVal) (r : Option String) (e : String),
        tool ≠ "resolve_query_scope" → tool ≠ "parallel_search" →
        execute_tool env tool
            (enforce_tool_args_with_scope env.clock cfg.scope cfg.user_query tool args) =
          .error e →
        loopTurn env cfg turn st (.toolCall tool args r) = .fail e) := by
  refine ⟨?_, ?_, ?_, ?_, ?_⟩
  · intro env args sql h hban
    simp [execute_tool, h, hban]
  · intro env args h
    simp [execute_tool, h]
  · intro env tool args hmem
    simp only [List.mem_cons, List.mem_singleton, not_or] at hmem
    obtain ⟨h1, h2, h3, h4, h5, h6, h7, h8, h9⟩ := hmem
    simp [execute_tool, h1, h2, h3, h4, h5, h6, h7, h8, h9]
  · intro env tool args e h
    exact execute_tool_with_retries_error env tool args e h
  · intro env cfg turn st tool args r e h1 h2 hexec
    have hret := execute_tool_with_retries_error env tool
      (enforce_tool_args_with_scope env.clock cfg.scope cfg.user_query tool args) e hexec
    simp only [loopTurn, if_neg h1, if_neg h2, hret]

/-- C6, witness: a DELETE statement, a missing query argument, an unknown
tool, and the deprecated `query_history` alias all produce propagating
errors at concrete inputs. -/
theorem claim_C6_witness :
    execute_tool testEnv "query_activities"
        (.obj [("query", .str "delete from activities")]) =
      .error "Only SELECT queries are allowed." ∧
    execute_tool testEnv "query_activities" (.obj [("limit", .num 5)]) =
      .error "Missing 'query' argument" ∧
    execute_tool testEnv "frobnicate" (.obj []) =
      .error "Unknown tool: frobnicate" ∧
    execute_tool_with_retries testEnv "frobnicate" (.obj [])
        MAX_TOOL_RETRY_LOOPS = .error "Unknown tool: frobnicate" ∧
    loopTurn testEnv cfg_w 0 ⟨[], [], 0, 0⟩
        (.toolCall "query_history" (.obj []) none) =
      .fail "Use query_activities instead" :=
  ⟨claim_C6_thm.1 testEnv _ "delete from activities" rfl (by decide),
   claim_C6_thm.2.1 testEnv _ rfl,
   claim_C6_thm.2.2.1 testEnv "frobnicate" _ (by decide),
   claim_C6_thm.2.2.2.1 testEnv "frobnicate" _ _
     (claim_C6_thm.2.2.1 testEnv "frobnicate" _ (by decide)),
   claim_C6_thm.2.2.2.2 testEnv cfg_w 0 _ "query_history" _ none _
     (by decide) (by decide) rfl⟩

/-- C8: a parsed `resolve_query_scope` tool call makes the loop halt
immediately, returning an answer that embeds the
`[[IF_ACTION:{"kind":"confirm_scope_or_sources", ...}]]` payload carrying
the suggested time range, the sources to enable, the reason and the
original query; the only step appended is the resolve-step record (no tool
observation), and the outcome is identical for every environment — no
retrieval runs and the suggested scope is never applied. -/
theorem claim_C8_thm (env : Env) (cfg : LoopConfig) (turn : Nat)
    (st : LoopState) (args : JVal) (reasoning : Option String) :
    loopTurn env cfg turn st (.toolCall "resolve_query_scope" args reasoning) =
      .halt
        { answer := "I can answer this more accurately after your confirmation.\n\n[[IF_ACTION:" ++
            renderIfAction
              { enable_sources :=
                  (match (args.getField "enable_sources").bind JVal.asArr with
                   | some l => l.filterMap JVal.asStr
                   | none => []),
                kind := "confirm_scope_or_sources",
                reason := ((args.index "reason").asStr).getD
                  "Your query requires a wider search range.",
                retry_message := cfg.user_query,
                suggested_time_range :=
                  some (((args.index "suggested_scope").asStr).getD "last_7_days") } ++
            "]]",
          steps := st.steps ++
            [{ turn := turn + 1, tool_name := "resolve_query_scope",
               tool_args := args,
               tool_result := "Requesting scope change to " ++
                 (((args.index "suggested_scope").asStr).getD "last_7_days") ++
                 " with sources " ++
                 debugFmtList
                   (match (args.getField "enable_sources").bind JVal.asArr with
                    | some l => l.filterMap JVal.asStr
                    | none => []),
               reasoning := reasoning.getD "" }],
          activities_referenced := st.all_activities } ∧
    (∀ env' : Env,
        loopTurn env' cfg turn st (.toolCall "resolve_query_scope" args reasoning) =
          loopTurn env cfg turn st (.toolCall "resolve_query_scope" args reasoning)) :=
  ⟨rfl, fun _ => rfl⟩

theorem exceptMapM_error_iff (f : α → Except String β) (l : List α) :
    (∃ e, exceptMapM f l = .error e) ↔ ∃ a ∈ l, ∃ e, f a = .error e := by
  induction l with
  | nil => simp [exceptMapM]
  | cons a as ih =>
    constructor
    · rintro ⟨e, he⟩
      rw [exceptMapM] at he
      cases hfa : f a with
      | error e2 =>
        exact ⟨a, by simp, e2, hfa⟩
      | ok b =>
        rw [hfa] at he
        cases hrest : exceptMapM f as with
        | error e2 =>
          obtain ⟨a2, ha2, e3, he3⟩ := ih.mp ⟨e2, hrest⟩
          exact ⟨a2, by simp [ha2], e3, he3⟩
        | ok bs => rw [hrest] at he; simp at he
    · rintro ⟨a2, ha2, e, he⟩
      rcases List.mem_cons.mp ha2 with h | h
      · subst h
        exact ⟨e, by rw [exceptMapM, he]⟩
      · cases hfa : f a with
        | error e2 => exact ⟨e2, by rw [exceptMapM, hfa]⟩
        | ok b =>
          obtain ⟨e2, he2⟩ := ih.mpr ⟨a2, h, e, he⟩
          exact ⟨e2, by rw [exceptMapM, hfa, he2]⟩

theorem exceptMapM_ok_forall (f : α → Except String β) (l : List α)
    (bs : List β) (h : exceptMapM f l = .ok bs) :
    ∀ a ∈ l, ∃ b ∈ bs, f a = .ok b := by
  induction l generalizing bs with
  | nil => simp
  | cons a as ih =>
    rw [exceptMapM] at h
    cases hfa : f a with
    | error e => rw [hfa] at h; simp at h
    | ok b =>
      rw [hfa] at h
      cases hrest : exceptMapM f as with
      | error e => rw [hrest] at h; simp at h
      | ok bs2 =>
        rw [hrest] at h
        simp only [] at h
        cases h
        intro a2 ha2
        rcases List.mem_cons.mp ha2 with h | h
        · subst h
          exact ⟨b, by simp, hfa⟩
        · obtain ⟨b2, hb2, hfb2⟩ := ih bs2 hrest a2 h
          exact ⟨b2, by simp [hb2], hfb2⟩

theorem exceptMapM_ok_mem_rev (f : α → Except String β) (l : List α)
    (bs : List β) (h : exceptMapM f l = .ok bs) :
    ∀ b ∈ bs, ∃ a ∈ l, f a = .ok b := by
  induction l generalizing bs with
  | nil =>
    rw [exceptMapM] at h
    cases h
    simp
  | cons a as ih =>
    rw [exceptMapM] at h
    cases hfa : f a with
    | error e => rw [hfa] at h; simp at h
    | ok b =>
      rw [hfa] at h
      cases hrest : exceptMapM f as with
      | error e => rw [hrest] at h; simp at h
      | ok bs2 =>
        rw [hrest] at h
        simp only [] at h
        cases h
        intro b2 hb2
        rcases List.mem_cons.mp hb2 with h | h
        · subst h
          exact ⟨a, by simp, hfa⟩
        · obtain ⟨a2, ha2, hfa2⟩ := ih bs2 hrest b2 h
          exact ⟨a2, by simp [ha2], hfa2⟩

theorem prepCall_error_iff (env : Env) (scope : Option TimeScope) (q : String)
    (call : JVal) :
    (∃ e, prepCall env scope q call = .error e) ↔
      ((call.getField "tool").bind JVal.asStr = none ∨
       (call.getField "tool").bind JVal.asStr = some "parallel_search") := by
  unfold prepCall
  cases htool : (call.getField "tool").bind JVal.asStr with
  | none => simp
  | some tool =>
    by_cases hp : tool = "parallel_search"
    · subst hp
      simp
    · simp [hp]

theorem runWorker_error_iff (env : Env) (p : String × JVal) (e : String) :
    runWorker env p = .error e ↔
      execute_tool_with_retries env p.1 p.2 MAX_TOOL_RETRY_LOOPS = .error e := by
  unfold runWorker
  cases h : execute_tool_with_retries env p.1 p.2 MAX_TOOL_RETRY_LOOPS with
  | error e2 => simp
  | ok r => obtain ⟨o, a, n⟩ := r; simp

/-- Following the claim's wording: the batch itself is invalid — no `calls`
array, an empty `calls` array, a call without a string `tool` field, or a
nested `parallel_search` call. -/
def parallelBatchInvalid (args : JVal) : Prop :=
  (args.getField "calls").bind JVal.asArr = none ∨
  ∃ calls, (args.getField "calls").bind JVal.asArr = some calls ∧
    (calls = [] ∨ ∃ call ∈ calls,
      ((call.getField "tool").bind JVal.asStr = none ∨
       (call.getField "tool").bind JVal.asStr = some "parallel_search"))

/-- Following the claim's wording: some validly-prepared sub-call's
execution fails. -/
def parallelWorkerFails (env : Env) (args : JVal) (scope : Option TimeScope)
    (q : String) : Prop :=
  ∃ calls, (args.getField "calls").bind JVal.asArr = some calls ∧
    ∃ call ∈ calls, ∃ p, prepCall env scope q call = .ok p ∧
      ∃ e, execute_tool_with_retries env p.1 p.2 MAX_TOOL_RETRY_LOOPS = .error e

/-- C7: `execute_parallel_search` returns an error (delivering nothing)
exactly when the batch is invalid or some worker fails; otherwise it
returns the merged summary string and the concatenation of all the calls'
transformed record lists. -/
theorem claim_C7_thm (env : Env) (args : JVal) (scope : Option TimeScope)
    (q : String) :
    ((∃ e, execute_parallel_search env args scope q = .error e) ↔
      (parallelBatchInvalid args ∨ parallelWorkerFails env args scope q)) ∧
    (∀ out acts, execute_parallel_search env args scope q = .ok (out, acts) →
      ∃ calls prepared results,
        (args.getField "calls").bind JVal.asArr = some calls ∧
        exceptMapM (prepCall env scope q) calls = .ok prepared ∧
        exceptMapM (runWorker env) prepared = .ok results ∧
        acts = results.foldl
          (fun a r => a ++ transform_activities_for_frontend r.1 r.2.2.1) [] ∧
        out = results.foldl
          (fun acc r =>
            acc ++ "- " ++ r.1 ++ " (attempts: " ++ toString r.2.2.2 ++ ")\n" ++
              "  " ++ truncate_for_token_limit (normalize_whitespace r.2.1) 500 ++ "\n")
          ("Parallel search executed " ++ toString calls.length ++
            " tool calls:\n")) := by
  constructor
  · unfold execute_parallel_search
    cases hc : (args.getField "calls").bind JVal.asArr with
    | none =>
      simp only [hc]
      constructor
      · intro _
        exact Or.inl (Or.inl hc)
      · intro _
        exact ⟨_, rfl⟩
    | some calls =>
      simp only [hc]
      by_cases hemp : calls.isEmpty
      · rw [if_pos hemp]
        constructor
        · intro _
          exact Or.inl (Or.inr ⟨calls, hc, Or.inl (List.isEmpty_iff.mp hemp)⟩)
        · intro _
          exact ⟨_, rfl⟩
      · rw [if_neg hemp]
        cases hprep : exceptMapM (prepCall env scope q) calls with
        | error e =>
          simp only [hprep]
          constructor
          · intro _
            obtain ⟨call, hcall, e2, he2⟩ :=
              (exceptMapM_error_iff _ _).mp ⟨e, hprep⟩
            exact Or.inl (Or.inr ⟨calls, hc,
              Or.inr ⟨call, hcall,
                (prepCall_error_iff env scope q call).mp ⟨e2, he2⟩⟩⟩)
          · intro _
            exact ⟨e, rfl⟩
        | ok prepared =>
          simp only [hprep]
          cases hrun : exceptMapM (runWorker env) prepared with
          | error e =>
            simp only [hrun]
            constructor
            · intro _
              obtain ⟨p, hp, e2, he2⟩ := (exceptMapM_error_iff _ _).mp ⟨e, hrun⟩
              obtain ⟨call, hcall, hpc⟩ :=
                exceptMapM_ok_mem_rev _ _ _ hprep p hp
              exact Or.inr ⟨calls, hc, call, hcall, p, hpc,
                e2, (runWorker_error_iff env p e2).mp he2⟩
            · intro _
              exact ⟨e, rfl⟩
          | ok results =>
            simp only [hrun]
            constructor
            · rintro ⟨e, he⟩
              simp at he
            · rintro (hinv | hwf)
              · rcases hinv with hnone | ⟨calls2, hc2, hbad⟩
                · rw [hc] at hnone; cases hnone
                · rw [hc] at hc2
                  cases hc2
                  rcases hbad with hnil | ⟨call, hcall, hbadcall⟩
                  · subst hnil; simp at hemp
                  · obtain ⟨e, he⟩ :=
                      (prepCall_error_iff env scope q call).mpr hbadcall
                    obtain ⟨e2, he2⟩ :=
                      (exceptMapM_error_iff _ _).mpr ⟨call, hcall, e, he⟩
                    rw [hprep] at he2
                    cases he2
              · obtain ⟨calls2, hc2, call, hcall, p, hpc, e, he⟩ := hwf
                rw [hc] at hc2
                cases hc2
                obtain ⟨b, hb, hfb⟩ := exceptMapM_ok_forall _ _ _ hprep call hcall
                rw [hpc] at hfb
                cases hfb
                obtain ⟨e2, he2⟩ :=
                  (exceptMapM_error_iff _ _).mpr
                    ⟨p, hb, e, (runWorker_error_iff env p e).mpr he⟩
                rw [hrun] at he2
                cases he2
  · intro out acts h
    unfold execute_parallel_search at h
    cases hc : (args.getField "calls").bind JVal.asArr with
    | none => simp [hc] at h
    | some calls =>
      simp only [hc] at h
      by_cases hemp : calls.isEmpty
      · rw [if_pos hemp] at h
        cases h
      · rw [if_neg hemp] at h
        cases hprep : exceptMapM (prepCall env scope q) calls with
        | error e => simp [hprep] at h
        | ok prepared =>
          simp only [hprep] at h
          cases hrun : exceptMapM (runWorker env) prepared with
          | error e => simp [hrun] at h
          | ok results =>
            simp only [hrun, Except.ok.injEq, Prod.mk.injEq] at h
            obtain ⟨hout, hacts⟩ := h
            exact ⟨calls, prepared, results, rfl, hprep, hrun,
              hacts.symm, hout.symm⟩

/-- Error-ness of a tool result (projection for closed statements). -/
def isErrorE (r : Except String (String × List JVal)) : Bool :=
  match r with
  | .error _ => true
  | .ok _ => false

/-- C7, witness: a batch containing a nested `parallel_search` call fails
as a whole, while a well-formed one-call batch succeeds. -/
theorem claim_C7_witness :
    isErrorE (execute_parallel_search testEnv
      (.obj [("calls", .arr [JVal.obj [("tool", .str "parallel_search")]])])
      none "q") = true ∧
    isErrorE (execute_parallel_search testEnv
      (.obj [("calls", .arr [JVal.obj [("args", .obj []),
        ("tool", .str "get_recent_ocr")]])])
      none "q") = false := by
  constructor
  · obtain ⟨e, he⟩ := (claim_C7_thm testEnv
      (.obj [("calls", .arr [JVal.obj [("tool", .str "parallel_search")]])])
      none "q").1.mpr
      (Or.inl (Or.inr ⟨[JVal.obj [("tool", .str "parallel_search")]], rfl,
        Or.inr ⟨JVal.obj [("tool", .str "parallel_search")], by simp, Or.inr rfl⟩⟩))
    rw [he]
    rfl
  · rfl

theorem stampScalar_stamps (clock : ClockEnv) (scope : TimeScope)
    (q tool : String) (fields : List (String × JVal)) :
    (stampScalar clock scope q tool (.obj fields)).getField "start_ts" =
      some (.num scope.start_ts) ∧
    (stampScalar clock scope q tool (.obj fields)).getField "end_ts" =
      some (.num scope.end_ts) ∧
    (stampScalar clock scope q tool (.obj fields)).getField "scope_label" =
      some (.str scope.label) := by
  unfold stampScalar
  refine ⟨?_, ?_, ?_⟩ <;>
  · simp only [JVal.getField]
    split <;> split <;>
      simp [findField_insertField_ne, findField_insertField_self]

theorem enforce_nonparallel_eq (clock : ClockEnv) (scope : TimeScope)
    (q tool : String) (args : JVal) (h : tool ≠ "parallel_search") :
    enforce_tool_args_with_scope clock scope q tool args =
      stampScalar clock scope q tool args := by
  cases args <;> simp [enforce_tool_args_with_scope, h]

theorem setCallArgs_findField (clock : ClockEnv) (scope : TimeScope)
    (q ct : String) (cf : List (String × JVal)) (base : JVal)
    (h : findField cf "args" = some base) :
    findField (setCallArgs clock scope q ct cf) "args" =
      some (enforce_tool_args_with_scope clock scope q ct base) := by
  induction cf with
  | nil => simp [findField] at h
  | cons p rest ih =>
    obtain ⟨k, v⟩ := p
    by_cases hk : k = "args"
    · subst hk
      simp only [findField, if_pos rfl] at h
      cases h
      simp [setCallArgs, findField]
    · simp only [findField, hk, if_false] at h
      simp only [setCallArgs, hk, if_false, findField, ih h]

/-- C1, counterexample: a `get_recent_activities` call whose `args` is the
JSON number 5 (not an object) is executed and recorded as-is —
`enforce_tool_args_with_scope` returns non-object args unchanged — so the
recorded step carries no `start_ts` at all, contradicting the claim that
every recorded non-parallel call carries the resolved scope's window. -/
theorem claim_C1_counterexample :
    (outcomeSteps (loopTurn testEnv cfg_w 0 ⟨[], [], 0, 0⟩
        (.toolCall "get_recent_activities" (.num 5) none))).map
      (fun s => s.tool_args.getField "start_ts") = [none] := rfl

/-- C1, amended: every non-parallel tool call whose args parse as a JSON
object is stamped with `start_ts`/`end_ts`/`scope_label` equal to the
resolved scope (overriding whatever the model proposed), and the agent loop
records exactly those enforced args in the step log; each `parallel_search`
sub-call with object args is stamped the same way; non-object args pass
through unchanged (the hole exhibited by the counterexample). -/
theorem claim_C1_amended :
    (∀ (clock : ClockEnv) (scope : TimeScope) (q tool : String)
        (fields : List (String × JVal)),
        tool ≠ "parallel_search" →
        (enforce_tool_args_with_scope clock scope q tool (.obj fields)).getField
            "start_ts" = some (.num scope.start_ts) ∧
        (enforce_tool_args_with_scope clock scope q tool (.obj fields)).getField
            "end_ts" = some (.num scope.end_ts) ∧
        (enforce_tool_args_with_scope clock scope q tool (.obj fields)).getField
            "scope_label" = some (.str scope.label)) ∧
    (∀ (clock : ClockEnv) (scope : TimeScope) (q : String)
        (cf : List (String × JVal)) (baseFields : List (String × JVal)),
        findField cf "args" = some (.obj baseFields) →
        ((findField cf "tool").bind JVal.asStr).getD "" ≠ "parallel_search" →
        (enforceCall clock scope q (.obj cf)).getField "args" =
          some (enforce_tool_args_with_scope clock scope q
            (((findField cf "tool").bind JVal.asStr).getD "") (.obj baseFields))) ∧
    (∀ (clock : ClockEnv) (scope : TimeScope) (q tool : String) (args : JVal),
        tool ≠ "parallel_search" → (∀ fields, args ≠ .obj fields) →
        enforce_tool_args_with_scope clock scope q tool args = args) ∧
    (∀ (env : Env) (cfg : LoopConfig) (turn : Nat) (st : LoopState)
        (tool : String) (args : JVal) (r : Option String) (st' : LoopState),
        tool ≠ "resolve_query_scope" →
        loopTurn env cfg turn st (.toolCall tool args r) = .next st' →
        ∃ res, st'.steps = st.steps ++
          [{ turn := turn + 1, tool_name := tool,
             tool_args := enforce_tool_args_with_scope env.clock cfg.scope
               cfg.user_query tool args,
             tool_result := res, reasoning := r.getD "" }]) := by
  refine ⟨?_, ?_, ?_, ?_⟩
  · intro clock scope q tool fields h
    rw [enforce_nonparallel_eq clock scope q tool (.obj fields) h]
    exact stampScalar_stamps clock scope q tool fields
  · intro clock scope q cf baseFields hargs _
    rw [enforceCall]
    exact setCallArgs_findField clock scope q _ cf (.obj baseFields) hargs
  · intro clock scope q tool args hpar hobj
    rw [enforce_nonparallel_eq clock scope q tool args hpar]
    cases args with
    | obj fields => exact absurd rfl (hobj fields)
    | null => rfl
    | bool b => rfl
    | num n => rfl
    | str s => rfl
    | arr elems => rfl
  · intro env cfg turn st tool args r st' htool hnext
    simp only [loopTurn, if_neg htool] at hnext
    set res :=
      (if tool = "parallel_search" then
        match execute_parallel_search env
            (enforce_tool_args_with_scope env.clock cfg.scope cfg.user_query tool args)
            (some cfg.scope) cfg.user_query with
        | .error e => Except.error e
        | .ok (out, activities) => Except.ok (out, activities, 1)
      else
        execute_tool_with_retries env tool
          (enforce_tool_args_with_scope env.clock cfg.scope cfg.user_query tool args)
          MAX_TOOL_RETRY_LOOPS) with hres
    clear_value res
    match res with
    | .error e => simp at hnext
    | .ok (tool_output, tool_activities, attempts_used) =>
      simp only [] at hnext
      cases hnext
      exact ⟨_, rfl⟩

theorem claim_C1_witness :
    "search_ocr" ≠ "parallel_search" ∧
    (enforce_tool_args_with_scope testClockW ⟨"today", "Today", 100, 200⟩ "q"
        "search_ocr" (.obj [("keyword", .str "x"), ("start_ts", .num 999)])).getField
      "start_ts" = some (.num 100) :=
  ⟨by decide,
   (claim_C1_amended.1 testClockW ⟨"today", "Today", 100, 200⟩ "q" "search_ocr"
     [("keyword", .str "x"), ("start_ts", .num 999)] (by decide)).1⟩

theorem long_range_step_shape (env : Env) (scope : TimeScope)
    (q tool : String) (raw : JVal) (reason : String)
    (acc acc' : List AgentStep × List JVal × List String)
    (h : execute_and_record_long_range_step env scope q tool raw reason acc =
      .ok acc') :
    ∃ st refs2 r,
      acc' = (acc.1 ++ [st], acc.2.1 ++ refs2, acc.2.2 ++ [tool ++ " -> " ++ r]) ∧
      st.tool_name = tool ∧ st.reasoning = reason := by
  unfold execute_and_record_long_range_step at h
  cases hx : execute_tool_with_retries env tool
      (enforce_tool_args_with_scope env.clock scope q tool raw)
      MAX_TOOL_RETRY_LOOPS with
  | error e =>
    simp only [hx] at h
    exact Except.noConfusion h
  | ok v =>
    obtain ⟨out, acts, att⟩ := v
    simp only [hx] at h
    injection h with h
    subst h
    exact ⟨_, _, _, rfl, rfl, rfl⟩

theorem map_toolname_enumFrom : ∀ (n : Nat) (l : List AgentStep),
    ((List.enumFrom n l).map fun p => { p.2 with turn := p.1 + 1 }).map
        (fun s => s.tool_name) = l.map fun s => s.tool_name
  | _, [] => rfl
  | n, a :: t => by
    simp only [List.enumFrom, List.map_cons, List.cons.injEq]
    exact ⟨by trivial, map_toolname_enumFrom (n + 1) t⟩

/-- C4, counterexample: the exact query "Summarize my whole year" never
triggers the long-range pipeline, even with the resolved `this_year` scope:
`should_use_long_range_pipeline` requires a summary keyword from its fixed
list ("summary", "overview", "recap", "what did i do", "this year",
"yearly", "annual") and "summarize my whole year" contains none of them, so
the pre-loop evidence is empty (`broad_summary` is also false, so not even
the prefetch fires). -/
theorem claim_C4_counterexample :
    should_use_long_range_pipeline "Summarize my whole year"
        ⟨"this_year", "This Year", 0, 31536000⟩
        (detect_query_intent "Summarize my whole year") = false ∧
    initial_evidence testEnv ⟨"this_year", "This Year", 0, 31536000⟩
        (detect_query_intent "Summarize my whole year")
        "Summarize my whole year" = ([], []) :=
  ⟨by decide, rfl⟩


theorem long_range_opt_step (env : Env) (scope : TimeScope)
    (q tool : String) (raw : JVal) (reason : String) (c : Bool)
    (acc acc' : List AgentStep × List JVal × List String)
    (h : (if c then
        execute_and_record_long_range_step env scope q tool raw reason acc
      else .ok acc) = .ok acc') :
    ∃ t u v, acc' = (acc.1 ++ t, acc.2.1 ++ u, acc.2.2 ++ v) := by
  split at h
  · obtain ⟨st, refs2, r, rfl, -, -⟩ :=
      long_range_step_shape _ _ _ _ _ _ _ _ h
    exact ⟨[st], refs2, [tool ++ " -> " ++ r], rfl⟩
  · injection h with h
    subst h
    exact ⟨[], [], [], by simp⟩

/-- C4, amended: a year-summary query that does contain one of the fixed
summary keywords (e.g. "Give me a yearly summary") triggers the long-range
pipeline for any `this_year` scope; whenever the pipeline succeeds, its
step list begins with a `get_usage_stats` step followed immediately by the
monthly-by-category `query_activities` rollup step, in that order, and its
digest starts with the corresponding two "tool -> result" lines; when the
pipeline is selected and succeeds those steps, in that order, are exactly
the pre-loop evidence, and `run_query_model` hands them to the agent loop
as the loop's initial step log. -/
theorem claim_C4_amended :
    (∀ scope : TimeScope, scope.id = "this_year" →
      should_use_long_range_pipeline "Give me a yearly summary" scope
        (detect_query_intent "Give me a yearly summary") = true) ∧
    (∀ (env : Env) (scope : TimeScope) (intent : QueryIntent) (uq : String)
        (steps : List AgentStep) (refs : List JVal) (digest : String),
      run_long_range_summary_pipeline env scope intent uq =
          .ok (steps, refs, digest) →
      ∃ s1 s2 rest, steps = s1 :: s2 :: rest ∧
        s1.tool_name = "get_usage_stats" ∧
        s1.reasoning = "Aggregate usage baseline for long-range summary" ∧
        s2.tool_name = "query_activities" ∧
        s2.reasoning = "Monthly category aggregation for long-range compression" ∧
        ∃ r1 r2 drest, digest = String.intercalate "\n\n"
          (("get_usage_stats" ++ " -> " ++ r1) ::
           ("query_activities" ++ " -> " ++ r2) :: drest)) ∧
    (∀ (env : Env) (scope : TimeScope) (intent : QueryIntent) (uq : String)
        (steps : List AgentStep) (refs : List JVal) (digest : String),
      should_use_long_range_pipeline uq scope intent = true →
      run_long_range_summary_pipeline env scope intent uq =
          .ok (steps, refs, digest) →
      (initial_evidence env scope intent uq).1.map (fun s => s.tool_name) =
        steps.map (fun s => s.tool_name)) ∧
    (∀ (env : Env) (trace : Nat → AgentResponse) (q : String)
        (es : Option String),
      run_query_model env trace q es =
        run_agent_loop env
          { user_query := q, scope := resolve_time_scope env.clock es,
            intent := detect_query_intent q } trace
          { steps := (initial_evidence env (resolve_time_scope env.clock es)
              (detect_query_intent q) q).1,
            all_activities := (initial_evidence env
              (resolve_time_scope env.clock es) (detect_query_intent q) q).2,
            final_without_evidence_attempts := 0,
            forced_parallel_runs := 0 }) := by
  refine ⟨?_, ?_, ?_, ?_⟩
  · intro scope h
    unfold should_use_long_range_pipeline
    simp only [h]
    simp
    decide
  · intro env scope intent uq steps refs digest h
    rw [run_long_range_summary_pipeline] at h
    simp only [] at h
    split at h
    · exact Except.noConfusion h
    next acc1 heq1 =>
    obtain ⟨st1, refs1, r1, rfl, ht1, hr1⟩ :=
      long_range_step_shape _ _ _ _ _ _ _ _ heq1
    split at h
    · exact Except.noConfusion h
    next acc2 heq2 =>
    obtain ⟨st2, refs2, r2, rfl, ht2, hr2⟩ :=
      long_range_step_shape _ _ _ _ _ _ _ _ heq2
    split at h
    · exact Except.noConfusion h
    next acc3 heq3 =>
    obtain ⟨st3, refs3, r3, rfl, -, -⟩ :=
      long_range_step_shape _ _ _ _ _ _ _ _ heq3
    split at h
    · exact Except.noConfusion h
    next acc4 heq4 =>
    obtain ⟨st4, refs4, r4, rfl, -, -⟩ :=
      long_range_step_shape _ _ _ _ _ _ _ _ heq4
    split at h
    · exact Except.noConfusion h
    next acc5 heq5 =>
    obtain ⟨t5, u5, v5, rfl⟩ := long_range_opt_step _ _ _ _ _ _ _ _ _ heq5
    split at h
    · exact Except.noConfusion h
    next acc6 heq6 =>
    obtain ⟨t6, u6, v6, rfl⟩ := long_range_opt_step _ _ _ _ _ _ _ _ _ heq6
    split at h
    · exact Except.noConfusion h
    next acc7 heq7 =>
    obtain ⟨t7, u7, v7, rfl⟩ := long_range_opt_step _ _ _ _ _ _ _ _ _ heq7
    injection h with h
    injection h with hsteps h
    injection h with hrefs hdig
    refine ⟨st1, st2,
      st3 :: st4 :: (t5 ++ (t6 ++ t7)), ?_, ht1, hr1, ht2, hr2,
      r1, r2,
      ("query_activities" ++ " -> " ++ r3) ::
        ("get_recent_activities" ++ " -> " ++ r4) :: (v5 ++ (v6 ++ v7)), ?_⟩
    · rw [← hsteps]
      simp [List.append_assoc]
    · rw [← hdig]
      congr 1
      simp [List.append_assoc]
  · intro env scope intent uq steps refs digest hshould hpipe
    unfold initial_evidence
    simp only [hshould, if_true, hpipe]
    exact map_toolname_enumFrom 0 steps
  · intro env trace q es
    rfl

theorem claim_C4_witness :
    (⟨"this_year", "This Year", 0, 31536000⟩ : TimeScope).id = "this_year" ∧
    should_use_long_range_pipeline "Give me a yearly summary"
        ⟨"this_year", "This Year", 0, 31536000⟩
        (detect_query_intent "Give me a yearly summary") = true :=
  ⟨rfl, claim_C4_amended.1 ⟨"this_year", "This Year", 0, 31536000⟩ rfl⟩

theorem runForcedParallel_next (env : Env) (cfg : LoopConfig) (turn : Nat)
    (st : LoopState) (why : String) (st' : LoopState)
    (h : runForcedParallel env cfg turn st why = .next st') :
    ∃ step, st'.steps = st.steps ++ [step] ∧
      step.tool_name = "parallel_search" ∧
      st'.forced_parallel_runs = st.forced_parallel_runs + 1 := by
  unfold runForcedParallel at h
  cases hx : execute_parallel_search env
      (build_forced_validation_parallel_args cfg.scope cfg.intent cfg.user_query)
      (some cfg.scope) cfg.user_query with
  | error e =>
    simp only [hx] at h
    exact TurnOutcome.noConfusion h
  | ok p =>
    obtain ⟨out, acts⟩ := p
    simp only [hx] at h
    injection h with h
    subst h
    exact ⟨_, rfl, rfl, rfl⟩

theorem runForcedParallel_ne_halt (env : Env) (cfg : LoopConfig) (turn : Nat)
    (st : LoopState) (why : String) (r : AgentResult) :
    runForcedParallel env cfg turn st why ≠ .halt r := by
  intro h
  unfold runForcedParallel at h
  cases hx : execute_parallel_search env
      (build_forced_validation_parallel_args cfg.scope cfg.intent cfg.user_query)
      (some cfg.scope) cfg.user_query with
  | error e =>
    simp only [hx] at h
    exact TurnOutcome.noConfusion h
  | ok p =>
    obtain ⟨out, acts⟩ := p
    simp only [hx] at h
    exact TurnOutcome.noConfusion h

theorem loopTurn_outcome_steps (env : Env) (cfg : LoopConfig) (turn : Nat)
    (st : LoopState) (resp : AgentResponse)
    (hreq : requires_evidence_for_query cfg.user_query = true)
    (hP : (st.steps = [] ∧ st.forced_parallel_runs < 2) ∨ st.steps ≠ []) :
    (match loopTurn env cfg turn st resp with
     | .next st' => st'.steps ≠ []
     | .halt r => r.steps ≠ []
     | .fail _ => True) := by
  cases resp with
  | toolCall tool args reasoning =>
    by_cases ht : tool = "resolve_query_scope"
    · simp [loopTurn, ht]
    · simp only [loopTurn, if_neg ht]
      split
      next st' heq =>
        split at heq
        · exact TurnOutcome.noConfusion heq
        · injection heq with heq
          subst heq
          simp
      next r heq =>
        split at heq
        · exact TurnOutcome.noConfusion heq
        · exact TurnOutcome.noConfusion heq
      next e heq => trivial
  | finalAnswer a =>
    simp only [loopTurn]
    split
    next st' heq =>
      split at heq
      · obtain ⟨step, hs, -, -⟩ := runForcedParallel_next _ _ _ _ _ _ heq
        simp [hs]
      · rename_i hg
        have hsteps : st.steps ≠ [] := by
          cases hP with
          | inl hpair => exact absurd (by simp [hpair.1, hreq, hpair.2]) hg
          | inr h => exact h
        split at heq
        · injection heq with heq
          subst heq
          exact hsteps
        · split at heq
          · injection heq with heq
            subst heq
            exact hsteps
          · split at heq
            · split at heq
              · obtain ⟨step, hs, -, -⟩ := runForcedParallel_next _ _ _ _ _ _ heq
                simp [hs]
              · split at heq
                · injection heq with heq
                  subst heq
                  exact hsteps
                · exact TurnOutcome.noConfusion heq
            · exact TurnOutcome.noConfusion heq
    next r heq =>
      split at heq
      · exact absurd heq (runForcedParallel_ne_halt _ _ _ _ _ r)
      · rename_i hg
        have hsteps : st.steps ≠ [] := by
          cases hP with
          | inl hpair => exact absurd (by simp [hpair.1, hreq, hpair.2]) hg
          | inr h => exact h
        split at heq
        · exact TurnOutcome.noConfusion heq
        · split at heq
          · exact TurnOutcome.noConfusion heq
          · split at heq
            · split at heq
              · exact absurd heq (runForcedParallel_ne_halt _ _ _ _ _ r)
              · split at heq
                · exact TurnOutcome.noConfusion heq
                · injection heq with heq
                  subst heq
                  exact hsteps
            · injection heq with heq
              subst heq
              exact hsteps
    next e heq => trivial

theorem runLoopAux_evidence (env : Env) (cfg : LoopConfig)
    (trace : Nat → AgentResponse)
    (hreq : requires_evidence_for_query cfg.user_query = true) :
    ∀ (fuel turn : Nat) (st : LoopState) (r : AgentResult),
    ((st.steps = [] ∧ st.forced_parallel_runs < 2 ∧ 0 < fuel) ∨ st.steps ≠ []) →
    runLoopAux env cfg trace fuel turn st = .ok r → r.steps ≠ [] := by
  intro fuel
  induction fuel with
  | zero =>
    intro turn st r hP h
    have hsteps : st.steps ≠ [] := by
      cases hP with
      | inl hpair => exact absurd hpair.2.2 (by simp)
      | inr h' => exact h'
    simp only [runLoopAux] at h
    injection h with h
    subst h
    exact hsteps
  | succ fuel ih =>
    intro turn st r hP h
    simp only [runLoopAux] at h
    have hout := loopTurn_outcome_steps env cfg turn st (trace turn) hreq
      (by
        cases hP with
        | inl hpair => exact Or.inl ⟨hpair.1, hpair.2.1⟩
        | inr h' => exact Or.inr h')
    cases hy : loopTurn env cfg turn st (trace turn) with
    | halt r0 =>
      rw [hy] at h hout
      injection h with h
      subst h
      exact hout
    | next st' =>
      rw [hy] at h hout
      exact ih (turn + 1) st' r (Or.inr hout) h
    | fail e =>
      rw [hy] at h
      exact Except.noConfusion h

/-- C3: for every non-small-talk query (one that `requires_evidence_for_query`
accepts), an accepted answer of the whole query run always carries at least
one step in its log; mechanically, a final-answer turn arriving with an
empty step log and fewer than 2 forced runs is redirected to the forced
broad `parallel_search`, which on success appends a `parallel_search` step
and increments the forced-run counter; and the forced-run counter can never
exceed 2 across loop iterations. -/
theorem claim_C3_thm :
    (∀ (env : Env) (trace : Nat → AgentResponse) (q : String)
        (es : Option String) (r : AgentResult),
      requires_evidence_for_query q = true →
      run_query_model env trace q es = .ok r → r.steps ≠ []) ∧
    (∀ (env : Env) (cfg : LoopConfig) (turn : Nat) (st : LoopState) (a : String),
      requires_evidence_for_query cfg.user_query = true →
      st.steps = [] → st.forced_parallel_runs < 2 →
      loopTurn env cfg turn st (.finalAnswer a) =
        runForcedParallel env cfg turn st
          "Forced evidence validation before final answer") ∧
    (∀ (env : Env) (cfg : LoopConfig) (turn : Nat) (st : LoopState)
        (why : String) (st' : LoopState),
      runForcedParallel env cfg turn st why = .next st' →
      ∃ step, st'.steps = st.steps ++ [step] ∧
        step.tool_name = "parallel_search" ∧
        st'.forced_parallel_runs = st.forced_parallel_runs + 1) ∧
    (∀ (env : Env) (cfg : LoopConfig) (turn : Nat) (st : LoopState)
        (resp : AgentResponse) (st' : LoopState),
      loopTurn env cfg turn st resp = .next st' →
      st.forced_parallel_runs ≤ 2 → st'.forced_parallel_runs ≤ 2) := by
  refine ⟨?_, ?_, ?_, ?_⟩
  · intro env trace q es r hreq h
    unfold run_query_model at h
    exact runLoopAux_evidence env
      { user_query := q, scope := resolve_time_scope env.clock es,
        intent := detect_query_intent q } trace hreq MAX_TURNS 0 _ r
      (by
        by_cases hs : (initial_evidence env (resolve_time_scope env.clock es)
            (detect_query_intent q) q).1 = []
        · exact Or.inl ⟨hs, (by decide : (0:Nat) < 2), (by decide : 0 < MAX_TURNS)⟩
        · exact Or.inr hs) h
  · intro env cfg turn st a hreq he hf
    simp [loopTurn, he, hreq, hf]
  · exact fun env cfg turn st why st' h =>
      runForcedParallel_next env cfg turn st why st' h
  · intro env cfg turn st resp st' h hle
    cases resp with
    | toolCall tool args reasoning =>
      by_cases ht : tool = "resolve_query_scope"
      · simp [loopTurn, ht] at h
      · simp only [loopTurn, if_neg ht] at h
        split at h
        · exact TurnOutcome.noConfusion h
        · injection h with h
          subst h
          exact hle
    | finalAnswer a =>
      simp only [loopTurn] at h
      split at h
      next hg =>
        obtain ⟨step, -, -, hfp⟩ := runForcedParallel_next _ _ _ _ _ _ h
        have : st.forced_parallel_runs < 2 := by
          simp only [Bool.and_eq_true, decide_eq_true_eq] at hg
          exact hg.2
        omega
      next hg =>
        split at h
        · injection h with h
          subst h
          exact hle
        · split at h
          · injection h with h
            subst h
            exact hle
          · split at h
            · split at h
              next hg2 =>
                obtain ⟨step, -, -, hfp⟩ := runForcedParallel_next _ _ _ _ _ _ h
                have hfp2 : st'.forced_parallel_runs =
                    st.forced_parallel_runs + 1 := hfp
                have : st.forced_parallel_runs < 2 := by
                  simp only [Bool.and_eq_true, decide_eq_true_eq] at hg2
                  exact hg2.2
                omega
              next hg2 =>
                split at h
                · injection h with h
                  subst h
                  exact hle
                · exact TurnOutcome.noConfusion h
            · exact TurnOutcome.noConfusion h

theorem claim_C3_witness :
    requires_evidence_for_query cfg_w.user_query = true ∧
    loopTurn testEnv cfg_w 0 ⟨[], [], 0, 0⟩ (.finalAnswer "hello") =
      runForcedParallel testEnv cfg_w 0 ⟨[], [], 0, 0⟩
        "Forced evidence validation before final answer" :=
  ⟨by decide,
   claim_C3_thm.2.1 testEnv cfg_w 0 ⟨[], [], 0, 0⟩ "hello" (by decide) rfl
     (by decide)⟩
